import Mathlib

/-!
Verification of the e-commerce bronze/silver/gold pipeline

A shallow embedding, in Lean 4, of the transformation and validation core of
the pipeline:

* `src/quality/validators.py` — the `DataQualityValidator` check engine;
* `src/glue_jobs/silver/transform_to_silver.py` — the Silver entity
  transformers (deduplication, derived columns, validation flags);
* `src/glue_jobs/gold/dim_tables.py` — the dimension builders;
* `src/glue_jobs/gold/fact_sales.py` — the fact builder.

Conventions of the embedding:

* Spark `double` columns are modelled as `Option ℚ` — `none` is SQL NULL,
  and the arithmetic helpers below (`omul`, `odiv`, …) implement Spark SQL
  null propagation (in particular `x / 0 = NULL` in Spark's default
  non-ANSI mode).
* Spark `F.round(col, n)` uses HALF_UP (ties away from zero) rounding to
  `n` decimal places; it is modelled by `roundHU`.
* `F.when(cond, a).otherwise(b)` evaluates to `b` whenever `cond` is NULL
  or false; `whenOtherwise` implements exactly that.
* A DataFrame is a `List` of row records (one structure per table).
  Wall-clock values (`F.current_timestamp()`, `F.current_date()`) are
  explicit parameters (`now`, `today`) of the functions that read them.
-/

/-- Spark SQL null-propagating addition on nullable doubles. -/
def oadd : Option ℚ → Option ℚ → Option ℚ
  | some a, some b => some (a + b)
  | _, _ => none

/-- Spark SQL null-propagating subtraction on nullable doubles. -/
def osub : Option ℚ → Option ℚ → Option ℚ
  | some a, some b => some (a - b)
  | _, _ => none

/-- Spark SQL null-propagating multiplication on nullable doubles. -/
def omul : Option ℚ → Option ℚ → Option ℚ
  | some a, some b => some (a * b)
  | _, _ => none

/-- Spark SQL division: NULL-propagating, and division by zero yields NULL
(Spark default, non-ANSI mode). -/
def odiv : Option ℚ → Option ℚ → Option ℚ
  | some a, some b => if b = 0 then none else some (a / b)
  | _, _ => none

/-- Spark SQL `abs` on a nullable double. -/
def oabs : Option ℚ → Option ℚ
  | some a => some |a|
  | none => none

/-- Spark SQL three-valued `<` on nullable doubles: NULL if either side is NULL. -/
def olt : Option ℚ → Option ℚ → Option Bool
  | some a, some b => some (decide (a < b))
  | _, _ => none

/-- Spark SQL three-valued `>` on nullable doubles. -/
def ogt : Option ℚ → Option ℚ → Option Bool
  | some a, some b => some (decide (b < a))
  | _, _ => none

/-- Spark `F.when(cond, a).otherwise(b)`: the `otherwise` branch is taken when the
condition is false or NULL. -/
def whenOtherwise {α : Type} (cond : Option Bool) (a b : Option α) : Option α :=
  if cond = some true then a else b

/-- HALF_UP (ties away from zero) rounding of `x` to two decimal places,
the rounding mode of Spark's `F.round(col, 2)`. -/
def roundHU2 (x : ℚ) : ℚ :=
  if 0 ≤ x then (⌊x * 100 + 1 / 2⌋ : ℚ) / 100 else -((⌊-x * 100 + 1 / 2⌋ : ℚ) / 100)

/-- Spark `F.round(col, 2)` on a nullable double. -/
def oround2 (x : Option ℚ) : Option ℚ := x.map roundHU2

/-!
Quality validator engine (`src/quality/validators.py`)
-/

/-- The severity enum `CheckSeverity` of `validators.py`. -/
inductive CheckSeverity where
  | warning
  | error
  | info
deriving DecidableEq, Repr

/-- The dataclass `QualityCheckResult` of `validators.py`, field for field. -/
structure QualityCheckResult where
  check_name : String
  passed : Bool
  severity : CheckSeverity
  message : String
  failed_count : ℕ := 0
  total_count : ℕ := 0
  failed_percentage : ℚ := 0
deriving DecidableEq, Repr

/-- Method `DataQualityValidator.all_passed`: iterate over the recorded results; a
failed `error`-severity result returns `False`; a failed `warning`-severity
result returns `False` only when `include_warnings`; everything else is
skipped. -/
def allPassed (results : List QualityCheckResult) (includeWarnings : Bool) : Bool :=
  match results with
  | [] => true
  | r :: rs =>
    if ¬r.passed ∧ r.severity = CheckSeverity.error then false
    else if ¬r.passed ∧ includeWarnings ∧ r.severity = CheckSeverity.warning then false
    else allPassed rs includeWarnings

/-- SQL equality used in join conditions: NULL compares unequal to
everything, including NULL. -/
def sqlEqOpt (a b : Option String) : Bool :=
  match a, b with
  | some x, some y => x == y
  | _, _ => false

/-- Method `DataQualityValidator.check_referential_integrity`: take the distinct
values of the foreign-key column and of the reference key column, left-anti
join the former against the latter on SQL equality, and count the
survivors. `fk` and `ref` are the two columns (a Spark column is nullable,
hence `Option`); `total` is the validator's `total_count` (the row count of
the target DataFrame, i.e. `fk.length`). -/
def checkReferentialIntegrity (column : String) (fk : List (Option String))
    (ref : List (Option String)) (severity : CheckSeverity) : QualityCheckResult :=
  let fkValues := fk.dedup
  let pkValues := ref.dedup
  let orphans := fkValues.filter (fun v => ¬ pkValues.any (fun w => sqlEqOpt v w))
  let orphanCount := orphans.length
  { check_name := "ref_integrity_" ++ column
    passed := orphanCount == 0
    severity := severity
    message := "Foreign key \x27" ++ column ++ "\x27 must exist in reference table"
    failed_count := orphanCount
    total_count := fk.length
    failed_percentage :=
      if fk.length > 0 then (orphanCount : ℚ) / (fk.length : ℚ) * 100 else 0 }

/-- A DataFrame as seen by `check_not_null`: its column names, and its rows
(a row maps a column name to a nullable cell). -/
structure SDataFrame where
  cols : List String
  rows : List (String → Option String)

/-- The result `check_not_null` records for a column that is present in the
DataFrame: count the rows whose cell is NULL. -/
def nullCheckResult (df : SDataFrame) (colName : String)
    (severity : CheckSeverity) : QualityCheckResult :=
  let nullCount := (df.rows.filter (fun r => (r colName).isNone)).length
  { check_name := "not_null_" ++ colName
    passed := nullCount == 0
    severity := severity
    message := "Null check for \x27" ++ colName ++ "\x27"
    failed_count := nullCount
    total_count := df.rows.length
    failed_percentage :=
      if df.rows.length > 0 then (nullCount : ℚ) / (df.rows.length : ℚ) * 100 else 0 }

/-- The result `check_not_null` builds for a column that is absent from the
DataFrame: failed, severity hard-coded to `ERROR` (the caller's severity
argument is ignored on this path). -/
def missingColumnResult (colName : String) : QualityCheckResult :=
  { check_name := "not_null_" ++ colName
    passed := false
    severity := CheckSeverity.error
    message := "Column \x27" ++ colName ++ "\x27 does not exist in DataFrame" }

/-- Method `DataQualityValidator.check_not_null`: loop over the requested columns;
a missing column contributes `missingColumnResult` to the returned list and
`continue`s (note: that result is not appended to `self.results`); a present
column contributes its null-count result to both the returned list and the
recorded state. Returns `(returned results, new self.results)`. -/
def checkNotNull (df : SDataFrame) (columns : List String)
    (severity : CheckSeverity) (state : List QualityCheckResult) :
    List QualityCheckResult × List QualityCheckResult :=
  match columns with
  | [] => ([], state)
  | c :: rest =>
    if c ∈ df.cols then
      let res := nullCheckResult df c severity
      let next := checkNotNull df rest severity (state ++ [res])
      (res :: next.1, next.2)
    else
      let res := missingColumnResult c
      let next := checkNotNull df rest severity state
      (res :: next.1, next.2)

/-- Whether a foreign-key cell finds a partner in the reference column under
SQL equality (a NULL cell never matches). -/
def refMatch (ref : List (Option String)) (v : Option String) : Bool :=
  ref.any (fun w => sqlEqOpt v w)

/-!
Silver transformers (`src/glue_jobs/silver/transform_to_silver.py`)

Bronze numeric columns arrive as strings and are cast in the first step of
each transformer (`F.col(c).cast(DoubleType())` / `IntegerType()`); a cast
failure yields NULL.  The embedding takes the cast's result as the input
field (`Option ℚ` / `Option ℤ`), since nothing downstream observes the raw
string.
-/

/-- The survivor the window `row_number() over (partition by key, order by
ingested desc) = 1` picks inside the partition of `k`: a row of maximal
ingestion timestamp (the embedding breaks ties toward the earlier row; the
source leaves ties to the engine's incidental order). -/
def latestFor {ρ κ : Type} [DecidableEq κ] (key : ρ → κ) (ing : ρ → ℚ) (k : κ) :
    List ρ → Option ρ
  | [] => none
  | r :: rs =>
    match latestFor key ing k rs with
    | none => if key r = k then some r else none
    | some b => if key r = k ∧ ing b ≤ ing r then some r else some b

/-- The deduplication step shared by all four Silver transformers
(`transform_customers` step 6, `transform_products` step 8,
`transform_orders` step 8, `transform_order_items` step 5):
`row_number` over a window partitioned by the natural key and ordered by
`_ingested_at` descending, keeping the rows numbered 1. -/
def dedupLatest {ρ κ : Type} [DecidableEq κ] (key : ρ → κ) (ing : ρ → ℚ)
    (rows : List ρ) : List ρ :=
  (rows.map key).dedup.filterMap (fun k => latestFor key ing k rows)

/-- A Bronze `order_items` row, numeric fields already cast. -/
structure OrderItemBronze where
  order_item_id : String
  order_id : String
  product_id : String
  quantity : Option ℤ
  unit_price : Option ℚ
  discount_percent : Option ℚ
  line_total : Option ℚ
  source_file : Option String
  ingested_at : ℚ
deriving DecidableEq, Repr

/-- A Silver `order_items` row (`transform_order_items` final select). -/
structure OrderItemSilver where
  order_item_id : String
  order_id : String
  product_id : String
  quantity : Option ℤ
  unit_price : Option ℚ
  gross_amount : Option ℚ
  discount_percent : Option ℚ
  discount_amount : Option ℚ
  line_total : Option ℚ
  calculated_line_total : Option ℚ
  is_line_total_valid : Option Bool
  source_file : Option String
  ingested_at : ℚ
  processed_at : ℚ
deriving DecidableEq, Repr

/-- Spark three-valued result of `F.abs(a - b) < 0.01`. -/
def oWithinCent (a b : Option ℚ) : Option Bool :=
  olt (oabs (osub a b)) (some (1 / 100))

/-- The per-row derivations of `transform_order_items` (steps 2-4 and the
processing timestamp): gross amount, discount amount, calculated line total
and the `is_line_total_valid` flag. An integer `quantity` is promoted to
double before multiplying. -/
def transformOrderItemRow (now : ℚ) (r : OrderItemBronze) : OrderItemSilver :=
  let gross := oround2 (omul (r.quantity.map (fun q => (q : ℚ))) r.unit_price)
  let discount := oround2 (odiv (omul gross r.discount_percent) (some 100))
  let calculated := oround2 (osub gross discount)
  { order_item_id := r.order_item_id
    order_id := r.order_id
    product_id := r.product_id
    quantity := r.quantity
    unit_price := r.unit_price
    gross_amount := gross
    discount_percent := r.discount_percent
    discount_amount := discount
    line_total := r.line_total
    calculated_line_total := calculated
    is_line_total_valid := oWithinCent r.line_total calculated
    source_file := r.source_file
    ingested_at := r.ingested_at
    processed_at := now }

/-- Transformer `transform_order_items`: per-row derivations, then deduplication by
`order_item_id` keeping the latest `_ingested_at`. -/
def transformOrderItems (now : ℚ) (rows : List OrderItemBronze) : List OrderItemSilver :=
  dedupLatest (fun r => r.order_item_id) (fun r => r.ingested_at)
    (rows.map (transformOrderItemRow now))

/-- A Bronze `products` row, numeric fields already cast. -/
structure ProductBronze where
  product_id : String
  sku : Option String
  name : Option String
  description : Option String
  category : Option String
  subcategory : Option String
  brand : Option String
  price : Option ℚ
  cost : Option ℚ
  stock_quantity : Option ℤ
  is_active : Option String
  created_at : Option ℚ
  source_file : Option String
  ingested_at : ℚ
deriving DecidableEq, Repr

/-- A Silver `products` row (`transform_products` final select). -/
structure ProductSilver where
  product_id : String
  sku : Option String
  name : Option String
  description : Option String
  category : Option String
  subcategory : Option String
  brand : Option String
  price : Option ℚ
  cost : Option ℚ
  margin_percent : Option ℚ
  stock_quantity : Option ℤ
  is_active : Bool
  created_at : Option ℚ
  source_file : Option String
  ingested_at : ℚ
  processed_at : ℚ
deriving DecidableEq, Repr

/-- The per-row derivations of `transform_products` (steps 2, 4-7 and the
processing timestamp). `margin_percent` is
`F.when(price > 0, F.round((price - cost) / price * 100, 2)).otherwise(0.0)`;
`is_active` is `F.when(F.lower(is_active).isin("true","1","yes"), True)
.otherwise(False)` (NULL input falls into the otherwise branch). -/
def transformProductRow (now : ℚ) (r : ProductBronze) : ProductSilver :=
  { product_id := r.product_id
    sku := r.sku.map (fun s => s.trim.toUpper)
    name := r.name.map String.trim
    description := some (r.description.getD "No description available")
    category := r.category.map (fun s => s.trim.toLower)
    subcategory := r.subcategory.map String.trim
    brand := r.brand.map String.trim
    price := r.price
    cost := r.cost
    margin_percent :=
      whenOtherwise (ogt r.price (some 0))
        (oround2 (omul (odiv (osub r.price r.cost) r.price) (some 100)))
        (some 0)
    stock_quantity := r.stock_quantity
    is_active :=
      match r.is_active with
      | some s => s.toLower == "true" || s.toLower == "1" || s.toLower == "yes"
      | none => false
    created_at := r.created_at
    source_file := r.source_file
    ingested_at := r.ingested_at
    processed_at := now }

/-- Transformer `transform_products`: per-row derivations, then deduplication by
`product_id` keeping the latest `_ingested_at`. -/
def transformProducts (now : ℚ) (rows : List ProductBronze) : List ProductSilver :=
  dedupLatest (fun r => r.product_id) (fun r => r.ingested_at)
    (rows.map (transformProductRow now))

/-!
Calendar model

`build_dim_date` generates dates with Python `datetime`/`timedelta`
arithmetic over the proleptic Gregorian calendar; `create_date_key` and the
date-part columns use the same calendar.
-/

/-- A proleptic Gregorian calendar date. -/
structure Date where
  year : ℕ
  month : ℕ
  day : ℕ
deriving DecidableEq, Repr

/-- Gregorian leap-year rule. -/
def isLeap (y : ℕ) : Bool :=
  (y % 4 == 0 && y % 100 != 0) || (y % 400 == 0)

/-- Days in a month (`0` for an out-of-range month index). -/
def daysInMonth (y m : ℕ) : ℕ :=
  match m with
  | 1 => 31
  | 2 => if isLeap y then 29 else 28
  | 3 => 31
  | 4 => 30
  | 5 => 31
  | 6 => 30
  | 7 => 31
  | 8 => 31
  | 9 => 30
  | 10 => 31
  | 11 => 30
  | 12 => 31
  | _ => 0

/-- A calendar-valid date (year ≥ 1, as in Python `datetime`). -/
def Date.Valid (d : Date) : Prop :=
  1 ≤ d.year ∧ 1 ≤ d.month ∧ d.month ≤ 12 ∧ 1 ≤ d.day ∧
    d.day ≤ daysInMonth d.year d.month

instance (d : Date) : Decidable d.Valid := by
  unfold Date.Valid
  infer_instance

/-- Length of a calendar year in days. -/
def daysInYear (y : ℕ) : ℕ :=
  365 + (if isLeap y then 1 else 0)

/-- Days from January 1 to the first day of month `m` of the same year. -/
def daysBeforeMonth (leap : Bool) (m : ℕ) : ℕ :=
  (match m with
   | 1 => 0
   | 2 => 31
   | 3 => 59
   | 4 => 90
   | 5 => 120
   | 6 => 151
   | 7 => 181
   | 8 => 212
   | 9 => 243
   | 10 => 273
   | 11 => 304
   | 12 => 334
   | _ => 365) +
  (if leap ∧ 3 ≤ m then 1 else 0)

/-- Number of leap years strictly before year `y` (from year 1). -/
def leapsBefore (y : ℕ) : ℕ :=
  (y - 1) / 4 - (y - 1) / 100 + (y - 1) / 400

/-- Day number of a date in the proleptic Gregorian calendar:
`0` is January 1 of year 1 (Python's `date.toordinal() - 1`). -/
def toOrdinal (d : Date) : ℕ :=
  365 * (d.year - 1) + leapsBefore d.year +
    daysBeforeMonth (isLeap d.year) d.month + (d.day - 1)

/-- The calendar successor of a date. -/
def nextDay (d : Date) : Date :=
  if d.day < daysInMonth d.year d.month then ⟨d.year, d.month, d.day + 1⟩
  else if d.month < 12 then ⟨d.year, d.month + 1, 1⟩
  else ⟨d.year + 1, 1, 1⟩

/-- Python `date + timedelta(days = n)`. -/
def addDays (d : Date) : ℕ → Date
  | 0 => d
  | n + 1 => nextDay (addDays d n)

/-- Spark `dayofweek`: 1 = Sunday … 7 = Saturday. January 1 of year 1 is a
Monday in the proleptic Gregorian calendar. -/
def sparkDayOfWeek (d : Date) : ℕ :=
  (toOrdinal d + 1) % 7 + 1

/-- ISO weekday: 1 = Monday … 7 = Sunday. -/
def isoWeekday (d : Date) : ℕ :=
  toOrdinal d % 7 + 1

/-- Spark `dayofyear`. -/
def dayOfYear (d : Date) : ℕ :=
  daysBeforeMonth (isLeap d.year) d.month + d.day

/-- Whether a year has 53 ISO weeks (its January 1 or December 31 is a
Thursday). -/
def hasISOWeek53 (y : ℕ) : Bool :=
  isoWeekday ⟨y, 1, 1⟩ == 4 || isoWeekday ⟨y, 12, 31⟩ == 4

/-- Spark `weekofyear` (ISO-8601 week number). -/
def isoWeekOfYear (d : Date) : ℕ :=
  let w : ℤ := ((dayOfYear d : ℤ) - isoWeekday d + 10) / 7
  if w < 1 then if hasISOWeek53 (d.year - 1) then 53 else 52
  else if w = 53 ∧ ¬hasISOWeek53 d.year then 1
  else w.toNat

/-- Day name (`date_format(date, "EEEE")`). -/
def dayName (d : Date) : String :=
  match sparkDayOfWeek d with
  | 1 => "Sunday"
  | 2 => "Monday"
  | 3 => "Tuesday"
  | 4 => "Wednesday"
  | 5 => "Thursday"
  | 6 => "Friday"
  | _ => "Saturday"

/-- Month name (`date_format(date, "MMMM")`). -/
def monthName (m : ℕ) : String :=
  match m with
  | 1 => "January"
  | 2 => "February"
  | 3 => "March"
  | 4 => "April"
  | 5 => "May"
  | 6 => "June"
  | 7 => "July"
  | 8 => "August"
  | 9 => "September"
  | 10 => "October"
  | 11 => "November"
  | _ => "December"

/-- Left-pad a number to two digits (`F.lpad(x, 2, "0")` on the values that
occur here). -/
def pad2 (n : ℕ) : String :=
  if n < 10 then "0" ++ toString n else toString n

/-- Spark `quarter`. -/
def quarterOf (m : ℕ) : ℕ := (m + 2) / 3

/-!
Gold layer (`dim_tables.py`, `fact_sales.py`)
-/

/-- A row of the `dim_date` table (`build_dim_date`). The truncated day and
month name columns (`"EEE"`, `"MMM"`) are the prefixes of length 3 of the
full names. -/
structure DimDateRow where
  date : Date
  date_key : ℤ
  day_of_month : ℕ
  day_of_week : ℕ
  day_of_year : ℕ
  week_of_year : ℕ
  month : ℕ
  quarter : ℕ
  year : ℕ
  day_name : String
  day_name_short : String
  month_name : String
  month_name_short : String
  year_month : String
  year_quarter : String
  year_week : String
  is_weekend : Bool
  is_weekday : Bool
  is_month_start : Bool
  is_month_end : Bool
  is_quarter_start : Bool
  is_quarter_end : Bool
  is_year_start : Bool
  is_year_end : Bool
  fiscal_year : ℕ
  fiscal_quarter : ℕ
  created_at : ℚ
deriving DecidableEq, Repr

/-- All derived columns of one `dim_date` row. -/
def mkDimDateRow (now : ℚ) (d : Date) : DimDateRow :=
  let dow := sparkDayOfWeek d
  { date := d
    date_key := (d.year : ℤ) * 10000 + (d.month : ℤ) * 100 + (d.day : ℤ)
    day_of_month := d.day
    day_of_week := dow
    day_of_year := dayOfYear d
    week_of_year := isoWeekOfYear d
    month := d.month
    quarter := quarterOf d.month
    year := d.year
    day_name := dayName d
    day_name_short := (dayName d).take 3
    month_name := monthName d.month
    month_name_short := (monthName d.month).take 3
    year_month := toString d.year ++ "-" ++ pad2 d.month
    year_quarter := toString d.year ++ "-Q" ++ toString (quarterOf d.month)
    year_week := toString d.year ++ "-W" ++ pad2 (isoWeekOfYear d)
    is_weekend := dow == 1 || dow == 7
    is_weekday := !(dow == 1 || dow == 7)
    is_month_start := d.day == 1
    is_month_end := d.day == daysInMonth d.year d.month
    is_quarter_start := (d.month == 1 || d.month == 4 || d.month == 7 ||
      d.month == 10) && d.day == 1
    is_quarter_end := (d.month == 3 || d.month == 6 || d.month == 9 ||
      d.month == 12) && d.day == daysInMonth d.year d.month
    is_year_start := d.month == 1 && d.day == 1
    is_year_end := d.month == 12 && d.day == 31
    fiscal_year := d.year
    fiscal_quarter := quarterOf d.month
    created_at := now }

/-- Builder `build_dim_date(start_year, end_year)`: one row per day from January 1
of `start_year` to December 31 of `end_year` inclusive
(`num_days = (end - start).days + 1`, dates `start + timedelta(days=i)`),
depending on no input dataset. -/
def buildDimDate (startYear endYear : ℕ) (now : ℚ) : List DimDateRow :=
  let startDate : Date := ⟨startYear, 1, 1⟩
  let endDate : Date := ⟨endYear, 12, 31⟩
  let numDays : ℤ := (toOrdinal endDate : ℤ) - (toOrdinal startDate : ℤ) + 1
  (List.range numDays.toNat).map (fun i => mkDimDateRow now (addDays startDate i))

/-- A Silver `orders` row, as read by the Gold builders (ids are the raw
string key columns; amounts are cast doubles). -/
structure OrderSilver where
  order_id : String
  customer_id : String
  order_date : Option Date
  status : Option String
  payment_method : Option String
  subtotal : Option ℚ
  tax_amount : Option ℚ
  shipping_amount : Option ℚ
  discount_amount : Option ℚ
  total_amount : Option ℚ
  currency : Option String
  shipping_country : Option String
  shipping_city : Option String
deriving DecidableEq, Repr

/-- A Silver `customers` row, as read by the Gold builders. -/
structure CustomerSilver where
  customer_id : String
  email : Option String
  full_name : Option String
  first_name : Option String
  last_name : Option String
  phone : Option String
  country : Option String
  city : Option String
  segment : Option String
  is_valid_email : Option Bool
  created_at : Option ℚ
deriving DecidableEq, Repr

/-- Window `row_number` assignment: pair each element of an (already ordered)
list with its 1-based position. -/
def assignKeys {α : Type} (l : List α) : List (α × ℕ) :=
  l.enum.map (fun p => (p.2, p.1 + 1))

/-- Insertion into a list sorted by the key `f`. -/
def insertSorted {α β : Type} [LinearOrder β] (f : α → β) (a : α) :
    List α → List α
  | [] => [a]
  | b :: bs => if f a ≤ f b then a :: b :: bs else b :: insertSorted f a bs

/-- Sort by the key `f` (`Window.orderBy`; insertion sort, stable). -/
def sortByKey {α β : Type} [LinearOrder β] (f : α → β) : List α → List α
  | [] => []
  | a :: l => insertSorted f a (sortByKey f l)

/-- The customer dimension lookup of `build_fact_sales`:
`customers.select("customer_id").distinct()` with surrogate keys assigned
by `row_number` over ascending `customer_id`. -/
def dimCustomerKeys (customers : List CustomerSilver) : List (String × ℕ) :=
  assignKeys (sortByKey id ((customers.map (fun c => c.customer_id)).dedup))

/-- The product dimension lookup of `build_fact_sales`:
`products.select("product_id", "cost").distinct()` with surrogate keys by
ascending `product_id`. -/
def dimProductKeys (products : List ProductSilver) :
    List ((String × Option ℚ) × ℕ) :=
  assignKeys (sortByKey Prod.fst
    ((products.map (fun p => (p.product_id, p.cost))).dedup))

/-- One joined tuple of
`order_items ⋈ orders ⋈ dim_customer ⋈ dim_product`. -/
structure FactBase where
  item : OrderItemSilver
  ord : OrderSilver
  customer_key : ℕ
  product_key : ℕ
  cost : Option ℚ
deriving DecidableEq, Repr

/-- The three inner joins of `build_fact_sales` (on `order_id`,
`customer_id`, `product_id`; ids are non-NULL string columns, so SQL
equality is plain equality). -/
def factBase (orders : List OrderSilver) (items : List OrderItemSilver)
    (dimC : List (String × ℕ)) (dimP : List ((String × Option ℚ) × ℕ)) :
    List FactBase :=
  items.flatMap (fun it =>
    (orders.filter (fun o => o.order_id == it.order_id)).flatMap (fun o =>
      (dimC.filter (fun ck => ck.1 == o.customer_id)).flatMap (fun ck =>
        (dimP.filter (fun pk => pk.1.1 == it.product_id)).map (fun pk =>
          ⟨it, o, ck.2, pk.2, pk.1.2⟩))))

/-- Helper `create_date_key`: `year*10000 + month*100 + day`, NULL-propagating. -/
def createDateKey (d : Option Date) : Option ℤ :=
  d.map (fun dt => (dt.year : ℤ) * 10000 + (dt.month : ℤ) * 100 + (dt.day : ℤ))

/-- The column names of the Silver `order_items` table
(`transform_order_items` final select). -/
def silverOrderItemColumnNames : List String :=
  ["order_item_id", "order_id", "product_id", "quantity", "unit_price",
   "gross_amount", "discount_percent", "discount_amount", "line_total",
   "calculated_line_total", "is_line_total_valid", "_source_file",
   "_ingested_at", "_processed_at"]

/-- The column names of the Silver `orders` table (`transform_orders`
final select). -/
def silverOrderColumnNames : List String :=
  ["order_id", "customer_id", "order_date", "order_year", "order_month",
   "order_day", "order_day_of_week", "order_week", "status",
   "payment_method", "subtotal", "tax_amount", "shipping_amount",
   "discount_amount", "total_amount", "calculated_total", "is_total_valid",
   "currency", "shipping_country", "shipping_city", "_source_file",
   "_ingested_at", "_processed_at"]

/-- Output schema of `left.join(right, key)` (a using-column join): the
join column once, then the remaining columns of both sides — same-named
non-key columns survive in duplicate. -/
def usingJoinColumns (leftCols rightCols : List String) (key : String) :
    List String :=
  leftCols ++ rightCols.filter (fun c => c ≠ key)

/-- The schema of `build_fact_sales` at its final select: the three
using-column joins, then the `withColumn` measures and the surrogate key.
It carries `discount_amount` (and the lineage columns) twice — once from
each Silver input. -/
def factJoinedColumns : List String :=
  (usingJoinColumns
    (usingJoinColumns
      (usingJoinColumns silverOrderItemColumnNames silverOrderColumnNames
        "order_id")
      ["customer_id", "customer_key"] "customer_id")
    ["product_id", "cost", "product_key"] "product_id") ++
  ["date_key", "gross_revenue", "net_revenue", "cost_of_goods", "profit",
   "profit_margin_pct", "allocated_tax", "allocated_shipping", "sale_key"]

/-- The bare column names referenced by the final select of
`build_fact_sales` (its last entry, `_created_at`, is an aliased
expression, not a name reference). -/
def factSelectColumnNames : List String :=
  ["sale_key", "date_key", "customer_key", "product_key", "order_id",
   "order_item_id", "order_date", "status", "payment_method",
   "shipping_country", "quantity", "unit_price", "discount_percent",
   "gross_revenue", "discount_amount", "net_revenue", "cost_of_goods",
   "profit", "profit_margin_pct", "allocated_tax", "allocated_shipping"]

/-- The selected names Spark's analyzer cannot resolve: a bare name
matching more than one column of the joined schema is an ambiguous
reference, and the eager analysis of `select` raises `AnalysisException`.
Here this list is `["discount_amount"]`. -/
def factAmbiguousSelectRefs : List String :=
  factSelectColumnNames.filter (fun c => 2 ≤ factJoinedColumns.count c)

/-- A row of the `fact_sales` table, as the final select of
`build_fact_sales` declares it. No such row is ever materialised: the
select itself fails analysis (see `buildFactSales`). -/
structure FactRow where
  sale_key : ℕ
  date_key : Option ℤ
  customer_key : ℕ
  product_key : ℕ
  order_id : String
  order_item_id : String
  order_date : Option Date
  status : Option String
  payment_method : Option String
  shipping_country : Option String
  quantity : Option ℤ
  unit_price : Option ℚ
  discount_percent : Option ℚ
  gross_revenue : Option ℚ
  discount_amount : Option ℚ
  net_revenue : Option ℚ
  cost_of_goods : Option ℚ
  profit : Option ℚ
  profit_margin_pct : Option ℚ
  allocated_tax : Option ℚ
  allocated_shipping : Option ℚ
  created_at : ℚ
deriving DecidableEq, Repr

/-- The allocation expression of `build_fact_sales` (lines 160-174):
`F.round(amount * line_total / subtotal, 2)`, with no zero-subtotal guard —
unlike `profit_margin_pct` three lines earlier. A zero subtotal therefore
yields NULL (Spark division), not the 0 the spec requires. -/
def allocatedAmount (amount lineTotal subtotal : Option ℚ) : Option ℚ :=
  oround2 (odiv (omul amount lineTotal) subtotal)

/-- The row the final select of `build_fact_sales` would project for one
joined tuple, with the measure columns of the `withColumn` chain (which
analyses fine — its references are unambiguous). For the ambiguous
`discount_amount` reference the projection is written with the order
item's column; Spark resolves no such choice — the select raises instead,
so this projection is only reachable through the never-taken `ok` branch
of `buildFactSales`. -/
def factSelectRow (now : ℚ) (saleKey : ℕ) (fb : FactBase) : FactRow :=
  let qty := fb.item.quantity.map (fun q => (q : ℚ))
  let netRevenue := oround2 fb.item.line_total
  let costOfGoods := oround2 (omul qty fb.cost)
  let profit := oround2 (osub netRevenue costOfGoods)
  { sale_key := saleKey
    date_key := createDateKey fb.ord.order_date
    customer_key := fb.customer_key
    product_key := fb.product_key
    order_id := fb.item.order_id
    order_item_id := fb.item.order_item_id
    order_date := fb.ord.order_date
    status := fb.ord.status
    payment_method := fb.ord.payment_method
    shipping_country := fb.ord.shipping_country
    quantity := fb.item.quantity
    unit_price := fb.item.unit_price
    discount_percent := fb.item.discount_percent
    gross_revenue := oround2 (omul qty fb.item.unit_price)
    discount_amount := fb.item.discount_amount
    net_revenue := netRevenue
    cost_of_goods := costOfGoods
    profit := profit
    profit_margin_pct :=
      whenOtherwise (ogt netRevenue (some 0))
        (oround2 (omul (odiv profit netRevenue) (some 100)))
        (some 0)
    allocated_tax :=
      allocatedAmount fb.ord.tax_amount fb.item.line_total fb.ord.subtotal
    allocated_shipping :=
      allocatedAmount fb.ord.shipping_amount fb.item.line_total fb.ord.subtotal
    created_at := now }

/-- The rows the logical plan of `build_fact_sales` describes before the
final select: the three inner joins, the measure columns, and the fact
surrogate key by `row_number` over ascending `order_item_id`. The plan is
lazy — none of these rows is computed unless the final select analyses,
which it never does. -/
def factPlan (now : ℚ) (orders : List OrderSilver)
    (items : List OrderItemSilver) (products : List ProductSilver)
    (customers : List CustomerSilver) : List FactRow :=
  let dimC := dimCustomerKeys customers
  let dimP := dimProductKeys products
  let base := factBase orders items dimC dimP
  (assignKeys (sortByKey (fun fb => fb.item.order_item_id) base)).map
    (fun p => factSelectRow now p.2 p.1)

/-- Builder `build_fact_sales`: dimension lookups, the three inner joins,
the measures, the surrogate key, then the final select stamping
`_created_at`. Spark analyses the select eagerly; a bare column name
matching two columns of the joined schema is an ambiguous reference and
raises `AnalysisException` before any row is computed or written.
`discount_amount` is such a name (it is a column of both Silver `orders`
and Silver `order_items`), so the builder fails on every input and never
produces a fact table. -/
def buildFactSales (now : ℚ) (orders : List OrderSilver)
    (items : List OrderItemSilver) (products : List ProductSilver)
    (customers : List CustomerSilver) : Except String (List FactRow) :=
  if factAmbiguousSelectRefs.isEmpty then
    Except.ok (factPlan now orders items products customers)
  else
    Except.error ("AMBIGUOUS_REFERENCE: " ++
      String.intercalate ", " factAmbiguousSelectRefs)

/-- The per-customer aggregate of `build_dim_customer`
(`orders.groupBy("customer_id").agg(...)`): Spark `sum`/`min`/`max`/`avg`
skip NULLs and return NULL on an all-NULL group; `count` of the non-NULL
string column `order_id` is the group size. -/
structure CustomerMetrics where
  total_orders : ℕ
  total_spend : Option ℚ
  first_order_date : Option Date
  last_order_date : Option Date
  avg_order_value : Option ℚ
deriving DecidableEq, Repr

/-- Spark `F.sum` over a nullable column. -/
def sparkSum (xs : List (Option ℚ)) : Option ℚ :=
  let vs := xs.filterMap id
  if vs.isEmpty then none else some (vs.foldl (· + ·) 0)

/-- Spark `F.avg` over a nullable column. -/
def sparkAvg (xs : List (Option ℚ)) : Option ℚ :=
  let vs := xs.filterMap id
  if vs.isEmpty then none else some (vs.foldl (· + ·) 0 / (vs.length : ℚ))

/-- Spark `F.min` on a nullable date column (chronological order). -/
def sparkMinDate (xs : List (Option Date)) : Option Date :=
  (xs.filterMap id).foldl
    (fun acc d => match acc with
      | none => some d
      | some b => if toOrdinal d < toOrdinal b then some d else some b)
    none

/-- Spark `F.max` on a nullable date column (chronological order). -/
def sparkMaxDate (xs : List (Option Date)) : Option Date :=
  (xs.filterMap id).foldl
    (fun acc d => match acc with
      | none => some d
      | some b => if toOrdinal b < toOrdinal d then some d else some b)
    none

/-- The metrics row the left join of `build_dim_customer` finds for a
customer: `none` exactly when the customer has no order rows (the grouped
aggregate has no group for it). -/
def customerMetricsFor (orders : List OrderSilver) (cid : String) :
    Option CustomerMetrics :=
  let grp := orders.filter (fun o => o.customer_id == cid)
  if grp.isEmpty then none
  else some
    { total_orders := grp.length
      total_spend := sparkSum (grp.map (fun o => o.total_amount))
      first_order_date := sparkMinDate (grp.map (fun o => o.order_date))
      last_order_date := sparkMaxDate (grp.map (fun o => o.order_date))
      avg_order_value := sparkAvg (grp.map (fun o => o.total_amount)) }

/-- Column `value_tier`: the `when`-chain on `total_spend`; a NULL spend falls
through every branch to `"bronze"`. -/
def valueTier (totalSpend : Option ℚ) : String :=
  match totalSpend with
  | some s =>
    if 1000 ≤ s then "platinum"
    else if 500 ≤ s then "gold"
    else if 100 ≤ s then "silver"
    else "bronze"
  | none => "bronze"

/-- Column `customer_status`: `prospect` when the left join found no metrics
(`total_orders` NULL), then thresholds on `days_since_last_order`; a NULL
days value falls through to `"active"`. -/
def customerStatus (hasMetrics : Bool) (daysSinceLast : Option ℤ) : String :=
  if !hasMetrics then "prospect"
  else match daysSinceLast with
    | some dd => if 365 < dd then "churned" else if 90 < dd then "at_risk" else "active"
    | none => "active"

/-- A row of the `dim_customer` table (final select of
`build_dim_customer`). -/
structure DimCustomerRow where
  customer_key : ℕ
  customer_id : String
  email : Option String
  full_name : Option String
  first_name : Option String
  last_name : Option String
  phone : Option String
  country : Option String
  city : Option String
  segment : Option String
  value_tier : String
  customer_status : String
  is_valid_email : Option Bool
  total_orders : ℕ
  total_spend : ℚ
  first_order_date : Option Date
  last_order_date : Option Date
  avg_order_value : Option ℚ
  days_since_last_order : Option ℤ
  effective_from : Option ℚ
  effective_to : Option ℚ
  is_current : Bool
  created_at : ℚ
deriving DecidableEq, Repr

/-- One `dim_customer` row: the left-joined metrics, the derived tier and
status columns (`days_since_last_order = datediff(current_date,
last_order_date)`), the SCD columns, and the coalesced metric columns of
the final select. -/
def dimCustomerRowOf (today : Date) (now : ℚ) (key : ℕ) (c : CustomerSilver)
    (m : Option CustomerMetrics) : DimCustomerRow :=
  let totalSpend := (m.map (fun x => x.total_spend)).join
  let lastOrder := (m.map (fun x => x.last_order_date)).join
  let daysSince := lastOrder.map (fun d => (toOrdinal today : ℤ) - (toOrdinal d : ℤ))
  { customer_key := key
    customer_id := c.customer_id
    email := c.email
    full_name := c.full_name
    first_name := c.first_name
    last_name := c.last_name
    phone := c.phone
    country := c.country
    city := c.city
    segment := c.segment
    value_tier := valueTier totalSpend
    customer_status := customerStatus m.isSome daysSince
    is_valid_email := c.is_valid_email
    total_orders := (m.map (fun x => x.total_orders)).getD 0
    total_spend := totalSpend.getD 0
    first_order_date := (m.map (fun x => x.first_order_date)).join
    last_order_date := lastOrder
    avg_order_value := (m.map (fun x => x.avg_order_value)).join
    days_since_last_order := daysSince
    effective_from := c.created_at
    effective_to := none
    is_current := true
    created_at := now }

/-- Builder `build_dim_customer`: join customers with the per-customer order
aggregate, derive the tier/status columns, then assign surrogate keys by
`row_number` over ascending `customer_id`. -/
def buildDimCustomer (today : Date) (now : ℚ) (customers : List CustomerSilver)
    (orders : List OrderSilver) : List DimCustomerRow :=
  (assignKeys (sortByKey (fun c => c.customer_id) customers)).map
    (fun p => dimCustomerRowOf today now p.2 p.1
      (customerMetricsFor orders p.1.customer_id))

/-- A row of the `dim_product` table (final select of
`build_dim_product`). -/
structure DimProductRow where
  product_key : ℕ
  product_id : String
  sku : Option String
  name : Option String
  description : Option String
  brand : Option String
  category : Option String
  subcategory : Option String
  price : Option ℚ
  cost : Option ℚ
  margin_percent : Option ℚ
  price_tier : String
  is_high_margin : Option Bool
  stock_quantity : Option ℤ
  stock_status : String
  is_active : Bool
  effective_from : Option ℚ
  effective_to : Option ℚ
  is_current : Bool
  created_at : ℚ
deriving DecidableEq, Repr

/-- Column `price_tier` of `build_dim_product`: the `when`-chain on
`price`; a NULL price falls through every branch to `"economy"`. -/
def priceTier (price : Option ℚ) : String :=
  match price with
  | some p =>
    if 500 ≤ p then "premium"
    else if 100 ≤ p then "mid_range"
    else if 25 ≤ p then "budget"
    else "economy"
  | none => "economy"

/-- Column `stock_status` of `build_dim_product`: the `when`-chain on
`stock_quantity`; a NULL quantity falls through to `"well_stocked"`. -/
def stockStatus (qty : Option ℤ) : String :=
  match qty with
  | some q =>
    if q = 0 then "out_of_stock"
    else if q < 10 then "low_stock"
    else if q < 50 then "normal"
    else "well_stocked"
  | none => "well_stocked"

/-- One `dim_product` row: the tier/status columns, the high-margin flag
(`margin_percent >= 40`, three-valued, NULL margin gives NULL), the SCD
columns, and the `_created_at` stamp. -/
def dimProductRowOf (now : ℚ) (key : ℕ) (p : ProductSilver) : DimProductRow :=
  { product_key := key
    product_id := p.product_id
    sku := p.sku
    name := p.name
    description := p.description
    brand := p.brand
    category := p.category
    subcategory := p.subcategory
    price := p.price
    cost := p.cost
    margin_percent := p.margin_percent
    price_tier := priceTier p.price
    is_high_margin := p.margin_percent.map (fun m => decide (40 ≤ m))
    stock_quantity := p.stock_quantity
    stock_status := stockStatus p.stock_quantity
    is_active := p.is_active
    effective_from := p.created_at
    effective_to := none
    is_current := true
    created_at := now }

/-- Builder `build_dim_product`: derive the tier/status/flag columns from
the Silver products, then assign surrogate keys by `row_number` over
ascending `product_id`. -/
def buildDimProduct (now : ℚ) (products : List ProductSilver) :
    List DimProductRow :=
  (assignKeys (sortByKey (fun p => p.product_id) products)).map
    (fun p => dimProductRowOf now p.2 p.1)

/-- A fact row with the run-timestamp metadata column normalised, for
comparing two runs column by column. -/
def FactRow.stripTime (f : FactRow) : FactRow :=
  { f with created_at := 0 }

/-- A dim_customer row with the run-timestamp metadata column
normalised. -/
def DimCustomerRow.stripTime (r : DimCustomerRow) : DimCustomerRow :=
  { r with created_at := 0 }

/-- A dim_product row with the run-timestamp metadata column
normalised. -/
def DimProductRow.stripTime (r : DimProductRow) : DimProductRow :=
  { r with created_at := 0 }

/-- A dim_date row with the run-timestamp metadata column normalised. -/
def DimDateRow.stripTime (r : DimDateRow) : DimDateRow :=
  { r with created_at := 0 }

/-!
Theorems
-/

theorem roundAux_abs_sub_le (y : ℚ) : |(⌊y * 100 + 1 / 2⌋ : ℚ) / 100 - y| ≤ 1 / 200 := by
  have h1 : (⌊y * 100 + 1 / 2⌋ : ℚ) ≤ y * 100 + 1 / 2 := Int.floor_le _
  have h2 : y * 100 + 1 / 2 - 1 < (⌊y * 100 + 1 / 2⌋ : ℚ) := Int.sub_one_lt_floor _
  rw [abs_le]
  constructor <;> linarith

theorem abs_roundHU2_sub_le (x : ℚ) : |roundHU2 x - x| ≤ 1 / 200 := by
  unfold roundHU2
  split
  · exact roundAux_abs_sub_le x
  · have h := roundAux_abs_sub_le (-x)
    calc |-((⌊-x * 100 + 1 / 2⌋ : ℚ) / 100) - x|
        = |(⌊-x * 100 + 1 / 2⌋ : ℚ) / 100 - -x| := by rw [← abs_neg]; ring_nf
      _ ≤ 1 / 200 := h

theorem roundHU2_cent (k : ℤ) : roundHU2 ((k : ℚ) / 100) = (k : ℚ) / 100 := by
  have hfl : ∀ z : ℤ, (⌊(z : ℚ) + 1 / 2⌋ : ℤ) = z := by
    intro z
    rw [Int.floor_int_add]
    norm_num
  unfold roundHU2
  split
  · have : (k : ℚ) / 100 * 100 + 1 / 2 = (k : ℚ) + 1 / 2 := by ring
    rw [this, hfl k]
  · have : -((k : ℚ) / 100) * 100 + 1 / 2 = ((-k : ℤ) : ℚ) + 1 / 2 := by push_cast; ring
    rw [this, hfl (-k)]
    push_cast
    ring

theorem roundHU2_is_cent (x : ℚ) : ∃ k : ℤ, roundHU2 x = (k : ℚ) / 100 := by
  unfold roundHU2
  split
  · exact ⟨⌊x * 100 + 1 / 2⌋, rfl⟩
  · exact ⟨-⌊-x * 100 + 1 / 2⌋, by push_cast; ring⟩

theorem sqlEqOpt_some_iff (a : String) (w : Option String) :
    sqlEqOpt (some a) w = true ↔ w = some a := by
  cases w with
  | none => simp [sqlEqOpt]
  | some b =>
    simp only [sqlEqOpt, beq_iff_eq, Option.some.injEq]
    exact eq_comm

theorem dedup_any_sqlEq (v : Option String) (ref : List (Option String)) :
    ref.dedup.any (fun w => sqlEqOpt v w) = refMatch ref v := by
  rw [Bool.eq_iff_iff]
  simp only [refMatch, List.any_eq_true]
  constructor
  · rintro ⟨w, hw, he⟩
    exact ⟨w, (List.mem_dedup).1 hw, he⟩
  · rintro ⟨w, hw, he⟩
    exact ⟨w, (List.mem_dedup).2 hw, he⟩

theorem isLeap_iff (y : ℕ) :
    isLeap y = true ↔ (y % 4 = 0 ∧ y % 100 ≠ 0) ∨ y % 400 = 0 := by
  simp [isLeap, Bool.or_eq_true, Bool.and_eq_true]

theorem leapsBefore_succ (y : ℕ) (hy : 1 ≤ y) :
    leapsBefore (y + 1) = leapsBefore y + (if isLeap y then 1 else 0) := by
  obtain ⟨a, rfl⟩ : ∃ a, y = a + 1 := ⟨y - 1, by omega⟩
  have hLmod := isLeap_iff (a + 1)
  simp only [leapsBefore, Nat.add_sub_cancel]
  cases hL : isLeap (a + 1) with
  | true =>
    rw [if_pos rfl]
    rcases hLmod.1 hL with ⟨h1, h2⟩ | h3 <;> omega
  | false =>
    rw [if_neg (by simp)]
    have hnor : ¬(((a + 1) % 4 = 0 ∧ (a + 1) % 100 ≠ 0) ∨ (a + 1) % 400 = 0) := by
      rw [← hLmod, hL]
      simp
    have h400 : (a + 1) % 400 ≠ 0 := fun hc => hnor (Or.inr hc)
    by_cases h4 : (a + 1) % 4 = 0
    · have h100 : (a + 1) % 100 = 0 := by
        by_contra hb
        exact hnor (Or.inl ⟨h4, hb⟩)
      omega
    · omega

theorem daysInMonth_bounds (y m : ℕ) (h1 : 1 ≤ m) (h2 : m ≤ 12) :
    28 ≤ daysInMonth y m ∧ daysInMonth y m ≤ 31 := by
  interval_cases m <;> simp only [daysInMonth] <;> (try split_ifs) <;> omega

theorem daysBeforeMonth_succ (y m : ℕ) (h1 : 1 ≤ m) (h2 : m ≤ 11) :
    daysBeforeMonth (isLeap y) (m + 1) =
      daysBeforeMonth (isLeap y) m + daysInMonth y m := by
  interval_cases m <;> cases hL : isLeap y <;>
    simp [daysBeforeMonth, daysInMonth, hL]

theorem toOrdinal_year_start_succ (y : ℕ) (hy : 1 ≤ y) :
    toOrdinal ⟨y + 1, 1, 1⟩ = toOrdinal ⟨y, 1, 1⟩ + daysInYear y := by
  unfold toOrdinal daysInYear
  dsimp only
  rw [leapsBefore_succ y hy]
  cases isLeap y <;> simp [daysBeforeMonth] <;> omega

theorem nextDay_valid : ∀ d : Date, d.Valid → (nextDay d).Valid := by
  rintro ⟨y, m, day⟩ ⟨hy, hm1, hm2, hd1, hd2⟩
  unfold nextDay
  dsimp only at *
  split_ifs with h1 h2
  all_goals unfold Date.Valid
  all_goals dsimp only
  · exact ⟨hy, hm1, hm2, by omega, by omega⟩
  · have hb := daysInMonth_bounds y (m + 1) (by omega) (by omega)
    exact ⟨hy, by omega, by omega, le_refl 1, by omega⟩
  · exact ⟨by omega, le_refl 1, by norm_num, le_refl 1, by simp [daysInMonth]⟩

theorem toOrdinal_nextDay : ∀ d : Date, d.Valid →
    toOrdinal (nextDay d) = toOrdinal d + 1 := by
  rintro ⟨y, m, day⟩ ⟨hy, hm1, hm2, hd1, hd2⟩
  unfold nextDay
  dsimp only at *
  split_ifs with h1 h2
  · unfold toOrdinal
    dsimp only
    omega
  · have hde : day = daysInMonth y m := by omega
    subst hde
    have hs := daysBeforeMonth_succ y m hm1 (by omega)
    have hb := daysInMonth_bounds y m hm1 hm2
    unfold toOrdinal
    dsimp only
    omega
  · have hm12 : m = 12 := by omega
    subst hm12
    have hde : day = 31 := by
      have : daysInMonth y 12 = 31 := rfl
      omega
    subst hde
    have hys := toOrdinal_year_start_succ y hy
    rw [hys]
    unfold toOrdinal daysInYear
    dsimp only
    cases hL : isLeap y <;> norm_num [daysBeforeMonth, hL]

theorem addDays_valid_ord (d : Date) (hd : d.Valid) (n : ℕ) :
    (addDays d n).Valid ∧ toOrdinal (addDays d n) = toOrdinal d + n := by
  induction n with
  | zero => exact ⟨hd, rfl⟩
  | succ k ih =>
    refine ⟨nextDay_valid _ ih.1, ?_⟩
    rw [show addDays d (k + 1) = nextDay (addDays d k) from rfl,
      toOrdinal_nextDay _ ih.1, ih.2]
    omega

theorem toOrdinal_within_year (d : Date) (h : d.Valid) :
    toOrdinal ⟨d.year, 1, 1⟩ ≤ toOrdinal d ∧
      toOrdinal d < toOrdinal ⟨d.year, 1, 1⟩ + daysInYear d.year := by
  obtain ⟨y, m, day⟩ := d
  obtain ⟨hy, hm1, hm2, hd1, hd2⟩ := h
  unfold toOrdinal
  dsimp only at *
  have h0 : daysBeforeMonth (isLeap y) 1 = 0 := by norm_num [daysBeforeMonth]
  constructor
  · omega
  · have key : daysBeforeMonth (isLeap y) m + daysInMonth y m ≤ daysInYear y := by
      cases hL : isLeap y <;> interval_cases m <;>
        norm_num [daysBeforeMonth, daysInMonth, daysInYear, hL]
    unfold daysInYear at key ⊢
    omega

theorem toOrdinal_start_mono (y1 y2 : ℕ) (h1 : 1 ≤ y1) (h : y1 ≤ y2) :
    toOrdinal ⟨y1, 1, 1⟩ ≤ toOrdinal ⟨y2, 1, 1⟩ := by
  induction h with
  | refl => exact le_refl _
  | @step n hn ih =>
    have hstep := toOrdinal_year_start_succ n (le_trans h1 hn)
    simp only [Nat.succ_eq_add_one]
    omega

theorem toOrdinal_lt_of_year_lt (a b : Date) (ha : a.Valid) (hb : b.Valid)
    (hab : a.year < b.year) : toOrdinal a < toOrdinal b := by
  have h3 := toOrdinal_within_year a ha
  have h4 := toOrdinal_within_year b hb
  have h5 : toOrdinal ⟨a.year + 1, 1, 1⟩ ≤ toOrdinal ⟨b.year, 1, 1⟩ :=
    toOrdinal_start_mono _ _ (by omega) (by omega)
  have h6 := toOrdinal_year_start_succ a.year ha.1
  omega

theorem daysBeforeMonth_mono (y m m' : ℕ) (h1 : 1 ≤ m) (hmm : m ≤ m')
    (h2 : m' ≤ 12) :
    daysBeforeMonth (isLeap y) m ≤ daysBeforeMonth (isLeap y) m' := by
  induction m' with
  | zero => omega
  | succ n ih =>
    rcases Nat.lt_or_ge m (n + 1) with hlt | hge
    · have hih := ih (by omega) (by omega)
      have hs := daysBeforeMonth_succ y n (by omega) (by omega)
      have hd := daysInMonth_bounds y n (by omega) (by omega)
      omega
    · have hm : m = n + 1 := by omega
      subst hm
      exact le_refl _

theorem toOrdinal_inj (d1 d2 : Date) (h1 : d1.Valid) (h2 : d2.Valid)
    (he : toOrdinal d1 = toOrdinal d2) : d1 = d2 := by
  have hy : d1.year = d2.year := by
    by_contra hne
    rcases lt_or_gt_of_ne hne with hlt | hgt
    · exact absurd he (ne_of_lt (toOrdinal_lt_of_year_lt d1 d2 h1 h2 hlt))
    · exact absurd he.symm (ne_of_lt (toOrdinal_lt_of_year_lt d2 d1 h2 h1 hgt))
  obtain ⟨y1, m1, day1⟩ := d1
  obtain ⟨y2, m2, day2⟩ := d2
  dsimp only at hy
  subst hy
  obtain ⟨hy1, hm11, hm12, hd11, hd12⟩ := h1
  obtain ⟨_, hm21, hm22, hd21, hd22⟩ := h2
  unfold toOrdinal at he
  dsimp only at *
  have key2 : ∀ mA dayA mB dayB : ℕ, 1 ≤ mA → mA ≤ 12 → 1 ≤ dayA →
      dayA ≤ daysInMonth y1 mA → 1 ≤ mB → mB ≤ 12 → 1 ≤ dayB →
      dayB ≤ daysInMonth y1 mB → mA < mB →
      daysBeforeMonth (isLeap y1) mA + (dayA - 1) <
        daysBeforeMonth (isLeap y1) mB + (dayB - 1) := by
    intro mA dayA mB dayB ha1 ha2 ha3 ha4 hb1 hb2 hb3 hb4 hab
    have hs := daysBeforeMonth_succ y1 mA ha1 (by omega)
    have hmono := daysBeforeMonth_mono y1 (mA + 1) mB (by omega) (by omega) hb2
    omega
  have hm : m1 = m2 := by
    by_contra hne
    rcases lt_or_gt_of_ne hne with hlt | hgt
    · have := key2 m1 day1 m2 day2 hm11 hm12 hd11 hd12 hm21 hm22 hd21 hd22 hlt
      omega
    · have := key2 m2 day2 m1 day1 hm21 hm22 hd21 hd22 hm11 hm12 hd11 hd12 hgt
      omega
  subst hm
  have hd : day1 = day2 := by omega
  subst hd
  rfl

theorem latestFor_eq_none {ρ κ : Type} [DecidableEq κ] (key : ρ → κ) (ing : ρ → ℚ)
    (k : κ) (l : List ρ) :
    latestFor key ing k l = none ↔ ∀ s ∈ l, key s ≠ k := by
  induction l with
  | nil => simp [latestFor]
  | cons a l ih =>
    cases h : latestFor key ing k l with
    | none =>
      have hn := ih.1 h
      by_cases ha : key a = k
      · simp only [latestFor, h, if_pos ha]
        constructor
        · intro hc
          exact Option.noConfusion hc
        · intro hall
          exact absurd ha (hall a (List.mem_cons_self a l))
      · simp only [latestFor, h, if_neg ha]
        constructor
        · intro _ s hs
          rcases List.mem_cons.1 hs with h1 | h1
          · subst h1; exact ha
          · exact hn s h1
        · intro _; trivial
    | some b =>
      have hb : ¬ ∀ s ∈ l, key s ≠ k := by
        intro hall
        rw [ih.2 hall] at h
        exact Option.noConfusion h
      simp only [latestFor, h]
      constructor
      · intro hc
        split at hc <;> exact Option.noConfusion hc
      · intro hall
        exact absurd (fun s hs => hall s (List.mem_cons_of_mem a hs)) hb

theorem latestFor_eq_some {ρ κ : Type} [DecidableEq κ] (key : ρ → κ) (ing : ρ → ℚ)
    (k : κ) (l : List ρ) (r : ρ) (h : latestFor key ing k l = some r) :
    key r = k ∧ r ∈ l ∧ ∀ s ∈ l, key s = k → ing s ≤ ing r := by
  induction l generalizing r with
  | nil => simp [latestFor] at h
  | cons a l ih =>
    cases hl : latestFor key ing k l with
    | none =>
      simp only [latestFor, hl] at h
      have hnone := (latestFor_eq_none key ing k l).1 hl
      by_cases ha : key a = k
      · simp only [ha, if_pos rfl] at h
        cases h
        refine ⟨ha, List.mem_cons_self _ _, ?_⟩
        intro s hs hks
        rcases List.mem_cons.1 hs with h1 | h1
        · exact le_of_eq (by rw [h1])
        · exact absurd hks (hnone s h1)
      · simp [ha] at h
    | some b =>
      simp only [latestFor, hl] at h
      obtain ⟨hkb, hmb, hbound⟩ := ih b hl
      by_cases hc : key a = k ∧ ing b ≤ ing a
      · rw [if_pos hc] at h
        cases h
        refine ⟨hc.1, List.mem_cons_self _ _, ?_⟩
        intro s hs hks
        rcases List.mem_cons.1 hs with h1 | h1
        · exact le_of_eq (by rw [h1])
        · exact le_trans (hbound s h1 hks) hc.2
      · rw [if_neg hc] at h
        cases h
        refine ⟨hkb, List.mem_cons_of_mem _ hmb, ?_⟩
        intro s hs hks
        rcases List.mem_cons.1 hs with h1 | h1
        · subst h1
          rcases not_and_or.1 hc with h2 | h2
          · exact absurd hks h2
          · exact le_of_lt (lt_of_not_le h2)
        · exact hbound s h1 hks

theorem latestFor_isSome {ρ κ : Type} [DecidableEq κ] (key : ρ → κ) (ing : ρ → ℚ)
    (k : κ) (l : List ρ) (h : k ∈ l.map key) :
    ∃ r, latestFor key ing k l = some r := by
  cases hl : latestFor key ing k l with
  | none =>
    obtain ⟨s, hs, hks⟩ := List.mem_map.1 h
    exact absurd hks ((latestFor_eq_none key ing k l).1 hl s hs)
  | some r => exact ⟨r, rfl⟩

theorem dedupLatest_filter_aux {ρ κ : Type} [DecidableEq κ] (key : ρ → κ) (ing : ρ → ℚ)
    (rows : List ρ) (k : κ) (l : List κ) (hn : l.Nodup) (hk : k ∈ l)
    (hall : ∀ k' ∈ l, k' ∈ rows.map key) :
    ((l.filterMap (fun k' => latestFor key ing k' rows)).filter
      (fun r => key r = k)).length = 1 := by
  induction l with
  | nil => simp at hk
  | cons k0 l ih =>
    obtain ⟨r0, hr0⟩ := latestFor_isSome key ing k0 rows (hall k0 (List.mem_cons_self _ _))
    have hkey0 : key r0 = k0 := (latestFor_eq_some key ing k0 rows r0 hr0).1
    rw [List.filterMap_cons, hr0]
    rcases List.mem_cons.1 hk with hkk | hkl
    · subst hkk
      have hnotl : ∀ r ∈ l.filterMap (fun k' => latestFor key ing k' rows), key r ≠ k := by
        intro r hr
        obtain ⟨k', hk', hsome⟩ := List.mem_filterMap.1 hr
        have := (latestFor_eq_some key ing k' rows r hsome).1
        rw [this]
        intro hcontra
        subst hcontra
        exact (List.nodup_cons.1 hn).1 hk'
      rw [List.filter_cons_of_pos (by simp [hkey0])]
      simp only [List.length_cons, Nat.succ_eq_add_one, Nat.add_left_eq_self]
      rw [List.length_eq_zero, List.filter_eq_nil_iff]
      intro r hr
      simp only [decide_eq_true_eq]
      exact hnotl r hr
    · have hk0k : key r0 ≠ k := by
        rw [hkey0]
        intro hcontra
        subst hcontra
        exact (List.nodup_cons.1 hn).1 hkl
      rw [List.filter_cons_of_neg (by simp [hk0k])]
      exact ih (List.nodup_cons.1 hn).2 hkl
        (fun k' hk' => hall k' (List.mem_cons_of_mem _ hk'))

/-- C1. For every entity transformer the Silver output contains exactly one
row per distinct natural key, and a surviving row has the maximum ingestion
timestamp among the input rows sharing its key. `dedupLatest` is the shared
deduplication step of `transform_customers`, `transform_products`,
`transform_orders` and `transform_order_items` (window over the natural key
ordered by `_ingested_at` descending, keeping `row_number = 1`); `key` and
`ing` range over the four transformers' natural-key and
ingestion-timestamp columns. -/
theorem silver_dedup_one_row_per_key_latest {ρ κ : Type} [DecidableEq κ]
    (key : ρ → κ) (ing : ρ → ℚ) (rows : List ρ) (k : κ) (h : k ∈ rows.map key) :
    ((dedupLatest key ing rows).filter (fun r => key r = k)).length = 1 ∧
    ∀ r ∈ dedupLatest key ing rows, key r = k →
      r ∈ rows ∧ ∀ s ∈ rows, key s = k → ing s ≤ ing r := by
  constructor
  · exact dedupLatest_filter_aux key ing rows k (rows.map key).dedup
      (List.nodup_dedup _) (List.mem_dedup.2 h)
      (fun k' hk' => List.mem_dedup.1 hk')
  · intro r hr hkr
    obtain ⟨k', _, hsome⟩ := List.mem_filterMap.1 hr
    obtain ⟨hk1, hk2, hk3⟩ := latestFor_eq_some key ing k' rows r hsome
    subst hkr
    exact ⟨hk2, fun s hs hks => hk3 s hs (by rw [hks, hk1])⟩

/-- Witness for C1: three rows, two sharing key `"A"`; the survivor for
`"A"` is the later-ingested row. -/
theorem silver_dedup_one_row_per_key_latest_witness :
    ("A" : String) ∈ ([(("A", (1 : ℚ))), ("B", 5), ("A", 3)].map Prod.fst) ∧
    ((dedupLatest (Prod.fst) (Prod.snd)
        [(("A" : String), (1 : ℚ)), ("B", 5), ("A", 3)]).filter
      (fun r => r.fst = "A")).length = 1 ∧
    ∀ r ∈ dedupLatest (Prod.fst) (Prod.snd)
        [(("A" : String), (1 : ℚ)), ("B", 5), ("A", 3)], r.fst = "A" →
      r ∈ [(("A" : String), (1 : ℚ)), ("B", 5), ("A", 3)] ∧
      ∀ s ∈ [(("A" : String), (1 : ℚ)), ("B", 5), ("A", 3)], s.fst = "A" →
        s.snd ≤ r.snd := by
  refine ⟨by decide, ?_⟩
  exact silver_dedup_one_row_per_key_latest Prod.fst Prod.snd _ "A" (by decide)

theorem refMatch_iff (ref : List (Option String)) (v : Option String) :
    refMatch ref v = true ↔ ∃ a : String, v = some a ∧ some a ∈ ref := by
  cases v with
  | none => simp [refMatch, sqlEqOpt]
  | some a =>
    simp only [refMatch, List.any_eq_true]
    constructor
    · rintro ⟨w, hw, he⟩
      exact ⟨a, rfl, ((sqlEqOpt_some_iff a w).1 he) ▸ hw⟩
    · rintro ⟨b, hb, hmem⟩
      cases hb
      exact ⟨some a, hmem, (sqlEqOpt_some_iff a (some a)).2 rfl⟩

/-- C5. `all_passed(include_warnings)` is true iff no recorded
`error`-severity result failed and, when `include_warnings` is set, no
`warning`-severity result failed either; and a result of severity `info`
never changes the aggregate, failed or not. -/
theorem all_passed_error_warning_iff (rs : List QualityCheckResult) (iw : Bool) :
    (allPassed rs iw = true ↔
      ((∀ r ∈ rs, r.severity = CheckSeverity.error → r.passed = true) ∧
       (iw = true → ∀ r ∈ rs, r.severity = CheckSeverity.warning → r.passed = true))) ∧
    ∀ r : QualityCheckResult, r.severity = CheckSeverity.info →
      allPassed (r :: rs) iw = allPassed rs iw := by
  constructor
  · induction rs with
    | nil => simp [allPassed]
    | cons r rs ih =>
      by_cases hp : r.passed = true
      · simp [allPassed, hp, List.forall_mem_cons, ih]
      · have hp' : r.passed = false := by
          cases h : r.passed
          · rfl
          · exact absurd h hp
        cases hsev : r.severity with
        | error => simp [allPassed, hp', hsev, List.forall_mem_cons]
        | warning =>
          cases iw with
          | true => simp [allPassed, hp', hsev, List.forall_mem_cons, ih]
          | false => simp [allPassed, hp', hsev, List.forall_mem_cons, ih]
        | info => simp [allPassed, hp', hsev, List.forall_mem_cons, ih]
  · intro r hsev
    simp [allPassed, hsev]

/-- Witness for C5 at a concrete result list: one failing `info` result and
one passing `error` result, with `include_warnings = true`. -/
theorem all_passed_error_warning_iff_witness :
    (allPassed [⟨"f", false, CheckSeverity.info, "m", 0, 0, 0⟩,
                ⟨"g", true, CheckSeverity.error, "m", 0, 0, 0⟩] true = true ↔
      ((∀ r ∈ [⟨"f", false, CheckSeverity.info, "m", 0, 0, 0⟩,
               ⟨"g", true, CheckSeverity.error, "m", 0, 0, 0⟩],
          QualityCheckResult.severity r = CheckSeverity.error →
            QualityCheckResult.passed r = true) ∧
       (true = true → ∀ r ∈ [⟨"f", false, CheckSeverity.info, "m", 0, 0, 0⟩,
               ⟨"g", true, CheckSeverity.error, "m", 0, 0, 0⟩],
          QualityCheckResult.severity r = CheckSeverity.warning →
            QualityCheckResult.passed r = true))) ∧
    ∀ r : QualityCheckResult, r.severity = CheckSeverity.info →
      allPassed (r :: [⟨"f", false, CheckSeverity.info, "m", 0, 0, 0⟩,
                       ⟨"g", true, CheckSeverity.error, "m", 0, 0, 0⟩]) true =
        allPassed [⟨"f", false, CheckSeverity.info, "m", 0, 0, 0⟩,
                   ⟨"g", true, CheckSeverity.error, "m", 0, 0, 0⟩] true :=
  all_passed_error_warning_iff _ true

theorem checkNotNull_mem_missing (df : SDataFrame) (sev : CheckSeverity)
    (columns : List String) (c : String) (hc : c ∈ columns) (hmiss : c ∉ df.cols) :
    ∀ st, missingColumnResult c ∈ (checkNotNull df columns sev st).1 := by
  induction columns with
  | nil => simp at hc
  | cons c0 rest ih =>
    intro st
    by_cases h0 : c0 ∈ df.cols
    · simp only [checkNotNull, if_pos h0]
      rcases List.mem_cons.1 hc with h1 | h1
      · subst h1; exact absurd h0 hmiss
      · exact List.mem_cons_of_mem _ (ih h1 _)
    · simp only [checkNotNull, if_neg h0]
      rcases List.mem_cons.1 hc with h1 | h1
      · subst h1; exact List.mem_cons_self _ _
      · exact List.mem_cons_of_mem _ (ih h1 _)

theorem checkNotNull_mem_present (df : SDataFrame) (sev : CheckSeverity)
    (columns : List String) (c : String) (hc : c ∈ columns) (hin : c ∈ df.cols) :
    ∀ st, nullCheckResult df c sev ∈ (checkNotNull df columns sev st).1 := by
  induction columns with
  | nil => simp at hc
  | cons c0 rest ih =>
    intro st
    by_cases h0 : c0 ∈ df.cols
    · simp only [checkNotNull, if_pos h0]
      rcases List.mem_cons.1 hc with h1 | h1
      · subst h1; exact List.mem_cons_self _ _
      · exact List.mem_cons_of_mem _ (ih h1 _)
    · simp only [checkNotNull, if_neg h0]
      rcases List.mem_cons.1 hc with h1 | h1
      · subst h1; exact absurd hin h0
      · exact List.mem_cons_of_mem _ (ih h1 _)

/-- C10. `check_not_null` on a column list containing a column that is not
in the DataFrame does not raise: the returned results contain, for the
missing column, a failed result whose severity is `error` no matter what
severity the caller passed, with the does-not-exist message, and every
named column that is present still gets its null-count result. -/
theorem check_not_null_missing_column (df : SDataFrame) (columns : List String)
    (sev : CheckSeverity) (st : List QualityCheckResult) (c : String)
    (hc : c ∈ columns) (hmiss : c ∉ df.cols) :
    missingColumnResult c ∈ (checkNotNull df columns sev st).1 ∧
    (missingColumnResult c).passed = false ∧
    (missingColumnResult c).severity = CheckSeverity.error ∧
    (missingColumnResult c).message =
      "Column \x27" ++ c ++ "\x27 does not exist in DataFrame" ∧
    ∀ c2 ∈ columns, c2 ∈ df.cols →
      nullCheckResult df c2 sev ∈ (checkNotNull df columns sev st).1 :=
  ⟨checkNotNull_mem_missing df sev columns c hc hmiss st, rfl, rfl, rfl,
   fun c2 hc2 hin2 => checkNotNull_mem_present df sev columns c2 hc2 hin2 st⟩

/-- Witness for C10: columns `["a", "b"]` against a DataFrame having only
column `"b"`, with caller severity `warning`. -/
theorem check_not_null_missing_column_witness :
    ("a" : String) ∈ ["a", "b"] ∧ ("a" : String) ∉ ["b"] ∧
    (missingColumnResult "a" ∈
      (checkNotNull ⟨["b"], [fun _ => some "v"]⟩ ["a", "b"]
        CheckSeverity.warning []).1 ∧
     (missingColumnResult "a").passed = false ∧
     (missingColumnResult "a").severity = CheckSeverity.error ∧
     (missingColumnResult "a").message =
       "Column \x27" ++ "a" ++ "\x27 does not exist in DataFrame" ∧
     ∀ c2 ∈ ["a", "b"], c2 ∈ (SDataFrame.mk ["b"] [fun _ => some "v"]).cols →
       nullCheckResult ⟨["b"], [fun _ => some "v"]⟩ c2 CheckSeverity.warning ∈
         (checkNotNull ⟨["b"], [fun _ => some "v"]⟩ ["a", "b"]
           CheckSeverity.warning []).1) :=
  ⟨by decide, by decide,
   check_not_null_missing_column ⟨["b"], [fun _ => some "v"]⟩ ["a", "b"]
     CheckSeverity.warning [] "a" (by decide) (by decide)⟩

/-- Counterexample for C6. With a NULL foreign-key value and a NULL
reference value, the set difference between the distinct values of the two
columns is empty, yet the check fails with `failed_count = 1`: the left-anti
join uses SQL equality, under which NULL matches nothing. -/
theorem check_ref_integrity_null_counterexample :
    (∀ v ∈ ([none] : List (Option String)).dedup,
        v ∈ ([none] : List (Option String)).dedup) ∧
    (checkReferentialIntegrity "customer_id" [none] [none]
        CheckSeverity.error).passed = false ∧
    (checkReferentialIntegrity "customer_id" [none] [none]
        CheckSeverity.error).failed_count = 1 :=
  ⟨fun _ hv => hv, by decide, by decide⟩

/-- C6 (amended). `check_referential_integrity` passes iff every value of
the foreign-key column is non-NULL and occurs in the reference column; its
`failed_count` is the number of distinct foreign-key values that are NULL
or absent (counted over distinct values, not over orphaned rows). -/
theorem check_ref_integrity_passed_iff (col : String)
    (fk ref : List (Option String)) (sev : CheckSeverity) :
    ((checkReferentialIntegrity col fk ref sev).passed = true ↔
      ∀ v ∈ fk, ∃ a : String, v = some a ∧ some a ∈ ref) ∧
    (checkReferentialIntegrity col fk ref sev).failed_count =
      (fk.dedup.filter (fun v => ¬ refMatch ref v = true)).length := by
  have hfilter : fk.dedup.filter
        (fun v => ¬ (ref.dedup.any (fun w => sqlEqOpt v w)) = true) =
      fk.dedup.filter (fun v => ¬ refMatch ref v = true) := by
    apply List.filter_congr
    intro v _
    rw [dedup_any_sqlEq]
  constructor
  · simp only [checkReferentialIntegrity, beq_iff_eq, List.length_eq_zero,
      List.filter_eq_nil_iff, decide_eq_true_eq, not_not]
    constructor
    · intro h v hv
      rw [← refMatch_iff, ← dedup_any_sqlEq]
      exact h v (List.mem_dedup.2 hv)
    · intro h v hv
      rw [dedup_any_sqlEq, refMatch_iff]
      exact h v (List.mem_dedup.1 hv)
  · simp only [checkReferentialIntegrity]
    rw [hfilter]

theorem dedupLatest_subset {ρ κ : Type} [DecidableEq κ] (key : ρ → κ) (ing : ρ → ℚ)
    (rows : List ρ) (r : ρ) (hr : r ∈ dedupLatest key ing rows) : r ∈ rows := by
  obtain ⟨k', _, hsome⟩ := List.mem_filterMap.1 hr
  exact (latestFor_eq_some key ing k' rows r hsome).2.1

theorem dedupLatest_singleton {ρ κ : Type} [DecidableEq κ] (key : ρ → κ)
    (ing : ρ → ℚ) (r : ρ) : dedupLatest key ing [r] = [r] := by
  simp [dedupLatest, latestFor]

/-- Counterexample for C3. Bronze order item
`{quantity: 1, unit_price: 0.375, discount_percent: 0, line_total: 0.389}`:
the transformer flags `is_line_total_valid = true` (it compares against the
rounded `calculated_line_total = 0.38`), although the stored `line_total`
is not within 0.01 of the recomputed value
`quantity × unit_price × (1 − discount_percent/100) = 0.375`
(`|0.389 − 0.375| = 0.014`). -/
theorem order_item_flag_vs_formula_counterexample :
    (transformOrderItemRow 0
      ⟨"I1", "O1", "P1", some 1, some (3 / 8), some 0, some (389 / 1000),
       none, 0⟩).is_line_total_valid = some true ∧
    ¬ |(389 / 1000 : ℚ) -
        ((1 : ℤ) : ℚ) * (3 / 8) * (1 - 0 / 100)| ≤ 1 / 100 := by
  constructor
  · simp only [transformOrderItemRow, oWithinCent, omul, odiv, osub, oround2,
      oabs, olt, Option.map_some']
    norm_num [roundHU2, abs_of_nonneg]
  · intro h
    rw [abs_le] at h
    norm_num at h

/-- C3 (amended). For a fully populated Silver order-item row with
`discount_percent ∈ [0, 100]`: `calculated_line_total` is within 0.01 of
`quantity × unit_price × (1 − discount_percent/100)`, and
`is_line_total_valid` is true iff the stored `line_total` is strictly
within 0.01 of `calculated_line_total` (the rounded recomputed total, not
the raw product). -/
theorem order_item_line_total_flag (now : ℚ) (r : OrderItemBronze)
    (q : ℤ) (up dp lt : ℚ)
    (hq : r.quantity = some q) (hup : r.unit_price = some up)
    (hdp : r.discount_percent = some dp) (hlt : r.line_total = some lt)
    (hdp0 : 0 ≤ dp) (hdp100 : dp ≤ 100) :
    ∃ c : ℚ, (transformOrderItemRow now r).calculated_line_total = some c ∧
      |c - (q : ℚ) * up * (1 - dp / 100)| ≤ 1 / 100 ∧
      ((transformOrderItemRow now r).is_line_total_valid = some true ↔
        |lt - c| < 1 / 100) := by
  obtain ⟨i1, i2, i3, qf, upf, dpf, ltf, sf, ing⟩ := r
  simp only at hq hup hdp hlt
  subst hq hup hdp hlt
  set g := roundHU2 ((q : ℚ) * up) with hg
  set d := roundHU2 (g * dp / 100) with hd
  have hcalc : (transformOrderItemRow now
      ⟨i1, i2, i3, some q, some up, some dp, some lt, sf, ing⟩).calculated_line_total =
      some (roundHU2 (g - d)) := by
    simp only [transformOrderItemRow, omul, odiv, osub, oround2, Option.map, hg, hd]
    norm_num
  have hident : roundHU2 (g - d) = g - d := by
    obtain ⟨k1, hk1⟩ := roundHU2_is_cent ((q : ℚ) * up)
    obtain ⟨k2, hk2⟩ := roundHU2_is_cent (g * dp / 100)
    rw [← hg] at hk1
    rw [← hd] at hk2
    have : g - d = ((k1 - k2 : ℤ) : ℚ) / 100 := by
      rw [hk1, hk2]
      push_cast
      ring
    rw [this, roundHU2_cent]
  refine ⟨g - d, by rw [hcalc, hident], ?_, ?_⟩
  · have he1 := abs_roundHU2_sub_le ((q : ℚ) * up)
    have he2 := abs_roundHU2_sub_le (g * dp / 100)
    rw [← hg] at he1
    rw [← hd] at he2
    rw [abs_le] at he1 he2 ⊢
    obtain ⟨he1a, he1b⟩ := he1
    obtain ⟨he2a, he2b⟩ := he2
    have hu0 : 0 ≤ 1 - dp / 100 := by linarith
    have hu1 : 1 - dp / 100 ≤ 1 := by linarith
    have hkey : g - d - (q : ℚ) * up * (1 - dp / 100) =
        (g - (q : ℚ) * up) * (1 - dp / 100) - (d - g * dp / 100) := by ring
    constructor
    · rw [hkey]
      nlinarith
    · rw [hkey]
      nlinarith
  · have hvalid : (transformOrderItemRow now
        ⟨i1, i2, i3, some q, some up, some dp, some lt, sf, ing⟩).is_line_total_valid =
        some (decide (|lt - roundHU2 (g - d)| < 1 / 100)) := by
      simp only [transformOrderItemRow, oWithinCent, omul, odiv, osub, oround2,
        Option.map, oabs, olt, hg, hd]
      norm_num
    rw [hvalid, hident]
    simp

/-- Witness for C3 (amended): the second scenario row of the spec
(`quantity 1`, `unit_price 599.99`, `discount 0`, stored total `599.99`). -/
theorem order_item_line_total_flag_witness :
    (0 : ℚ) ≤ 0 ∧ (0 : ℚ) ≤ 100 ∧
    ∃ c : ℚ, (transformOrderItemRow 0
        ⟨"I1", "O1", "P1", some 1, some (59999 / 100), some 0,
         some (59999 / 100), none, 0⟩).calculated_line_total = some c ∧
      |c - ((1 : ℤ) : ℚ) * (59999 / 100) * (1 - 0 / 100)| ≤ 1 / 100 ∧
      ((transformOrderItemRow 0
          ⟨"I1", "O1", "P1", some 1, some (59999 / 100), some 0,
           some (59999 / 100), none, 0⟩).is_line_total_valid = some true ↔
        |(59999 / 100 : ℚ) - c| < 1 / 100) :=
  ⟨le_refl 0, by norm_num,
   order_item_line_total_flag 0
     ⟨"I1", "O1", "P1", some 1, some (59999 / 100), some 0,
      some (59999 / 100), none, 0⟩ 1 (59999 / 100) 0 (59999 / 100)
     rfl rfl rfl rfl (le_refl 0) (by norm_num)⟩

/-- C8. For every Silver product row with a non-NULL price:
`margin_percent = round((price − cost) / price × 100, 2)` when `price > 0`
(and the cost is present), and `margin_percent = 0` when `price ≤ 0` — the
zero-price case takes the `otherwise` branch, so no division by zero is
evaluated. -/
theorem product_margin_percent (now : ℚ) (rows : List ProductBronze)
    (r : ProductSilver) (hr : r ∈ transformProducts now rows)
    (p : ℚ) (hp : r.price = some p) :
    (0 < p → ∀ c : ℚ, r.cost = some c →
      r.margin_percent = some (roundHU2 ((p - c) / p * 100))) ∧
    (p ≤ 0 → r.margin_percent = some 0) := by
  obtain ⟨b, _, rfl⟩ := List.mem_map.1
    (dedupLatest_subset _ _ _ r (by exact hr))
  have hbp : b.price = some p := hp
  have hmp : (transformProductRow now b).margin_percent =
      whenOtherwise (ogt b.price (some 0))
        (oround2 (omul (odiv (osub b.price b.cost) b.price) (some 100)))
        (some 0) := rfl
  constructor
  · intro hpos c hc
    have hbc : b.cost = some c := hc
    have hcond : ogt b.price (some 0) = some true := by
      rw [hbp]
      simp [ogt, hpos]
    have hval : oround2 (omul (odiv (osub b.price b.cost) b.price) (some 100)) =
        some (roundHU2 ((p - c) / p * 100)) := by
      rw [hbp, hbc]
      simp [osub, odiv, omul, oround2, ne_of_gt hpos]
    rw [hmp, hcond]
    simp only [whenOtherwise, if_pos]
    exact hval
  · intro hneg
    have hcond : ogt b.price (some 0) = some false := by
      rw [hbp]
      simp [ogt, not_lt.mpr hneg]
    rw [hmp, hcond]
    simp [whenOtherwise]

/-- Witness for C8: a product priced 4.00 with cost 1.00 (margin 75%). -/
theorem product_margin_percent_witness :
    transformProductRow 0
        ⟨"P1", none, none, none, none, none, none, some 4, some 1, none,
         some "true", none, none, 0⟩ ∈
      transformProducts 0
        [⟨"P1", none, none, none, none, none, none, some 4, some 1, none,
          some "true", none, none, 0⟩] ∧
    ((0 < (4 : ℚ) → ∀ c : ℚ,
        (transformProductRow 0
          ⟨"P1", none, none, none, none, none, none, some 4, some 1, none,
           some "true", none, none, 0⟩).cost = some c →
        (transformProductRow 0
          ⟨"P1", none, none, none, none, none, none, some 4, some 1, none,
           some "true", none, none, 0⟩).margin_percent =
          some (roundHU2 ((4 - c) / 4 * 100))) ∧
     ((4 : ℚ) ≤ 0 →
        (transformProductRow 0
          ⟨"P1", none, none, none, none, none, none, some 4, some 1, none,
           some "true", none, none, 0⟩).margin_percent = some 0)) :=
  ⟨by simp [transformProducts, dedupLatest_singleton],
   product_margin_percent 0
     [⟨"P1", none, none, none, none, none, none, some 4, some 1, none,
       some "true", none, none, 0⟩]
     (transformProductRow 0
       ⟨"P1", none, none, none, none, none, none, some 4, some 1, none,
        some "true", none, none, 0⟩)
     (by simp [transformProducts, dedupLatest_singleton]) 4 rfl⟩

/-- C2. On the failing input (a one-row join whose order has
`subtotal = 0`, `tax_amount = 5`, `shipping_amount = 4`), `build_fact_sales`
does not produce zero allocations — it produces nothing: its final select
references `discount_amount`, a column of both joined Silver tables, and
Spark raises `AnalysisException` before any row is computed. Moreover the
allocation expression itself (lines 160-174), had execution reached it,
has no zero-subtotal guard: `round(amount * line_total / subtotal, 2)`
evaluates to NULL at a zero subtotal (Spark division), not the 0 the claim
and §4.3 of the spec require — unlike `profit_margin_pct`, which is
guarded three lines earlier. -/
theorem fact_sales_zero_subtotal_fault :
    buildFactSales 0
      [⟨"O1", "C1", some ⟨2024, 1, 15⟩, none, none, some 0, some 5, some 4,
        some 1, some 9, none, none, none⟩]
      [⟨"I1", "O1", "P1", some 1, some 10, some 10, some 0, some 0, some 0,
        some 10, some false, none, 0, 0⟩]
      [⟨"P1", none, none, none, none, none, none, some 10, some 2, some 80,
        none, true, none, none, 0, 0⟩]
      [⟨"C1", none, none, none, none, none, none, none, none, none, none⟩] =
      Except.error "AMBIGUOUS_REFERENCE: discount_amount" ∧
    allocatedAmount (some 5) (some 0) (some 0) = none ∧
    allocatedAmount (some 4) (some 0) (some 0) = none :=
  ⟨rfl, rfl, rfl⟩

/-- Counterexample for C4. Two rebuilds of `dim_customer` from identical
Silver input are not byte-for-byte identical: the `_created_at` metadata
column is `F.current_timestamp()`, which differs between the two runs
(run timestamps 0 and 1 here). -/
theorem gold_rebuild_not_bytewise_identical :
    buildDimCustomer ⟨2024, 1, 1⟩ 0
        [⟨"C1", none, none, none, none, none, none, none, none, none, none⟩] [] ≠
      buildDimCustomer ⟨2024, 1, 1⟩ 1
        [⟨"C1", none, none, none, none, none, none, none, none, none, none⟩] [] := by
  intro h
  have e0 : buildDimCustomer ⟨2024, 1, 1⟩ 0
      [⟨"C1", none, none, none, none, none, none, none, none, none, none⟩] [] =
      [dimCustomerRowOf ⟨2024, 1, 1⟩ 0 1
        ⟨"C1", none, none, none, none, none, none, none, none, none, none⟩ none] := rfl
  have e1 : buildDimCustomer ⟨2024, 1, 1⟩ 1
      [⟨"C1", none, none, none, none, none, none, none, none, none, none⟩] [] =
      [dimCustomerRowOf ⟨2024, 1, 1⟩ 1 1
        ⟨"C1", none, none, none, none, none, none, none, none, none, none⟩ none] := rfl
  rw [e0, e1] at h
  have ha : dimCustomerRowOf ⟨2024, 1, 1⟩ 0 1
      ⟨"C1", none, none, none, none, none, none, none, none, none, none⟩ none =
      dimCustomerRowOf ⟨2024, 1, 1⟩ 1 1
      ⟨"C1", none, none, none, none, none, none, none, none, none, none⟩ none := by
    injection h
  have hq : (0 : ℚ) = 1 := congrArg DimCustomerRow.created_at ha
  norm_num at hq

/-- C4 (amended). Rebuilding the Gold tables from unchanged Silver input
is deterministic in everything except the wall clock: for `dim_customer`
(given the same run date), `dim_product` and `dim_date`, two rebuilds
agree on every column of every row — surrogate keys in particular — once
the run-timestamp column `_created_at` is normalised; and two
`fact_sales` rebuilds give literally the same result, because
`build_fact_sales` raises the same `AnalysisException` on every run
instead of producing a table. -/
theorem gold_rebuild_deterministic_up_to_timestamp (orders : List OrderSilver)
    (items : List OrderItemSilver) (products : List ProductSilver)
    (customers : List CustomerSilver) (today : Date) (sy ey : ℕ)
    (now₁ now₂ : ℚ) :
    (buildDimCustomer today now₁ customers orders).map DimCustomerRow.stripTime =
      (buildDimCustomer today now₂ customers orders).map DimCustomerRow.stripTime ∧
    (buildDimProduct now₁ products).map DimProductRow.stripTime =
      (buildDimProduct now₂ products).map DimProductRow.stripTime ∧
    (buildDimDate sy ey now₁).map DimDateRow.stripTime =
      (buildDimDate sy ey now₂).map DimDateRow.stripTime ∧
    buildFactSales now₁ orders items products customers =
      buildFactSales now₂ orders items products customers := by
  refine ⟨?_, ?_, ?_, ?_⟩
  · simp only [buildDimCustomer, List.map_map]
    rfl
  · simp only [buildDimProduct, List.map_map]
    rfl
  · simp only [buildDimDate, List.map_map]
    rfl
  · rfl

theorem mem_insertSorted {α β : Type} [LinearOrder β] (f : α → β) (a x : α)
    (l : List α) : x ∈ insertSorted f a l ↔ x = a ∨ x ∈ l := by
  induction l with
  | nil => simp [insertSorted]
  | cons b bs ih =>
    unfold insertSorted
    by_cases hc : f a ≤ f b
    · simp [hc]
    · simp only [if_neg hc, List.mem_cons, ih]
      tauto

theorem mem_sortByKey {α β : Type} [LinearOrder β] (f : α → β) (x : α)
    (l : List α) : x ∈ sortByKey f l ↔ x ∈ l := by
  induction l with
  | nil => simp [sortByKey]
  | cons a l ih =>
    unfold sortByKey
    rw [mem_insertSorted, ih, List.mem_cons]

theorem mem_assignKeys {α : Type} (l : List α) (p : α × ℕ)
    (hp : p ∈ assignKeys l) : p.1 ∈ l := by
  simp only [assignKeys, List.mem_map] at hp
  obtain ⟨q, hq, rfl⟩ := hp
  have := List.mem_enum_iff_getElem?.1 hq
  obtain ⟨h, heq⟩ := List.getElem?_eq_some_iff.1 this
  exact heq ▸ List.getElem_mem h

theorem dimCustomerKeys_natural (customers : List CustomerSilver)
    (ck : String × ℕ) (h : ck ∈ dimCustomerKeys customers) :
    ∃ c ∈ customers, c.customer_id = ck.1 := by
  have h1 := mem_assignKeys _ _ h
  rw [mem_sortByKey] at h1
  have h2 := List.mem_dedup.1 h1
  obtain ⟨c, hc, he⟩ := List.mem_map.1 h2
  exact ⟨c, hc, he⟩

theorem dimProductKeys_natural (products : List ProductSilver)
    (pk : (String × Option ℚ) × ℕ) (h : pk ∈ dimProductKeys products) :
    ∃ p ∈ products, p.product_id = pk.1.1 := by
  have h1 := mem_assignKeys _ _ h
  rw [mem_sortByKey] at h1
  have h2 := List.mem_dedup.1 h1
  obtain ⟨p, hp, he⟩ := List.mem_map.1 h2
  exact ⟨p, hp, congrArg Prod.fst he⟩

/-- Referential soundness of the logical plan of `build_fact_sales` (the
joins, measures and surrogate keys before the failing select): every plan
row carries a `customer_key`/`product_key` present in the dimension
lookups and descends from an order item whose order, customer and product
all matched; unmatched order items contribute no plan row. This is the
intent the failing builder never delivers (see
`fact_sales_select_always_raises`). -/
theorem fact_plan_referential (now : ℚ) (orders : List OrderSilver)
    (items : List OrderItemSilver) (products : List ProductSilver)
    (customers : List CustomerSilver) (f : FactRow)
    (hf : f ∈ factPlan now orders items products customers) :
    (∃ ck ∈ dimCustomerKeys customers, ck.2 = f.customer_key) ∧
    (∃ pk ∈ dimProductKeys products, pk.2 = f.product_key) ∧
    ∃ it ∈ items, ∃ o ∈ orders, it.order_id = o.order_id ∧
      f.order_item_id = it.order_item_id ∧
      (∃ c ∈ customers, c.customer_id = o.customer_id) ∧
      (∃ p ∈ products, p.product_id = it.product_id) := by
  simp only [factPlan] at hf
  obtain ⟨pk0, hmem, rfl⟩ := List.mem_map.1 hf
  have hfb : pk0.1 ∈ factBase orders items (dimCustomerKeys customers)
      (dimProductKeys products) :=
    (mem_sortByKey _ _ _).1 (mem_assignKeys _ _ hmem)
  simp only [factBase, List.mem_flatMap, List.mem_map, List.mem_filter] at hfb
  obtain ⟨it, hit, o, ⟨ho, hoid⟩, ck, ⟨hck, hckid⟩, pk, ⟨hpk, hpkid⟩, heq⟩ := hfb
  rw [← heq]
  have hoid' : o.order_id = it.order_id := by
    exact beq_iff_eq.1 hoid
  have hckid' : ck.1 = o.customer_id := by
    exact beq_iff_eq.1 hckid
  have hpkid' : pk.1.1 = it.product_id := by
    exact beq_iff_eq.1 hpkid
  refine ⟨⟨ck, hck, rfl⟩, ⟨pk, hpk, rfl⟩, it, hit, o, ho, hoid'.symm, rfl, ?_, ?_⟩
  · obtain ⟨c, hc, hcid⟩ := dimCustomerKeys_natural customers ck hck
    exact ⟨c, hc, hcid.trans hckid'⟩
  · obtain ⟨p, hp, hpid⟩ := dimProductKeys_natural products pk hpk
    exact ⟨p, hp, hpid.trans hpkid'⟩

/-- C9. The claim describes rows of the FactSales output, but
`build_fact_sales` produces no output for any Silver-schema input: its
final select references `discount_amount` bare, a column of both joined
Silver tables (`orders` and `order_items`), and the eager analysis of the
select raises `AnalysisException` before any row is computed or written.
Evaluated here at a fully matched one-row join (one order, one item, one
product, one customer); the second conjunct pins down the one ambiguous
reference. The referential property itself is sound at the level of the
logical plan the joins describe (`fact_plan_referential`). -/
theorem fact_sales_select_always_raises :
    buildFactSales 0
      [⟨"O1", "C1", some ⟨2024, 1, 15⟩, none, none, some 100, some 5, some 4,
        some 1, some 110, none, none, none⟩]
      [⟨"I1", "O1", "P1", some 1, some 10, some 10, some 0, some 0, some 10,
        some 10, some true, none, 0, 0⟩]
      [⟨"P1", none, none, none, none, none, none, some 10, some 2, some 80,
        none, true, none, none, 0, 0⟩]
      [⟨"C1", none, none, none, none, none, none, none, none, none, none⟩] =
      Except.error "AMBIGUOUS_REFERENCE: discount_amount" ∧
    factAmbiguousSelectRefs = ["discount_amount"] :=
  ⟨rfl, rfl⟩

/-- Witness for C6 (amended) at a concrete pair of columns: one matching
value, one absent value, one NULL, with a duplicated foreign-key value. -/
theorem check_ref_integrity_passed_iff_witness :
    ((checkReferentialIntegrity "product_id" [some "P1", some "P2", some "P1", none]
        [some "P1"] CheckSeverity.warning).passed = true ↔
      ∀ v ∈ [some "P1", some "P2", some "P1", none],
        ∃ a : String, v = some a ∧ some a ∈ [some "P1"]) ∧
    (checkReferentialIntegrity "product_id" [some "P1", some "P2", some "P1", none]
        [some "P1"] CheckSeverity.warning).failed_count =
      (([some "P1", some "P2", some "P1", none] : List (Option String)).dedup.filter
        (fun v => ¬ refMatch [some "P1"] v = true)).length :=
  check_ref_integrity_passed_iff "product_id" _ _ CheckSeverity.warning

theorem filter_range_eq_one (N i0 : ℕ) (h : i0 < N) :
    ((List.range N).filter (fun i => i = i0)).length = 1 := by
  induction N with
  | zero => omega
  | succ n ih =>
    rw [List.range_succ, List.filter_append]
    rcases Nat.lt_or_ge i0 n with hlt | hge
    · have h2 : (List.filter (fun i => decide (i = i0)) [n]).length = 0 := by
        simp only [List.filter, List.length_nil]
        rw [decide_eq_false (by omega : ¬ n = i0)]
        rfl
      rw [List.length_append, ih hlt, h2]
    · have hi : i0 = n := by omega
      subst hi
      have h1 : (List.range i0).filter (fun i => decide (i = i0)) = [] := by
        rw [List.filter_eq_nil_iff]
        intro a ha
        have := List.mem_range.1 ha
        simp only [decide_eq_true_eq]
        omega
      rw [h1]
      simp [List.filter]

/-- C7. `build_dim_date(start_year, end_year)` materialises exactly one row
for every calendar day from January 1 of `start_year` through December 31 of
`end_year` inclusive: each in-range day `d` appears in exactly one row,
every row carries an in-range valid day whose `date_key` is
`year*10000 + month*100 + day`, and the number of rows is the number of days
in the range (hence 365 per year and 366 per leap year). The builder reads
no input dataset — `buildDimDate` is a function of the two years (and the
run timestamp) alone. -/
theorem dim_date_one_row_per_day (sy ey : ℕ) (now : ℚ) (d : Date)
    (hsy : 1 ≤ sy) (hse : sy ≤ ey) (hd : d.Valid) (hy1 : sy ≤ d.year)
    (hy2 : d.year ≤ ey) :
    ((buildDimDate sy ey now).filter (fun r => r.date = d)).length = 1 ∧
    (∀ r ∈ buildDimDate sy ey now, r.date.Valid ∧ sy ≤ r.date.year ∧
      r.date.year ≤ ey ∧
      r.date_key = (r.date.year : ℤ) * 10000 + (r.date.month : ℤ) * 100 +
        (r.date.day : ℤ)) ∧
    (buildDimDate sy ey now).length =
      toOrdinal ⟨ey, 12, 31⟩ + 1 - toOrdinal ⟨sy, 1, 1⟩ := by
  have hsv : (⟨sy, 1, 1⟩ : Date).Valid :=
    ⟨hsy, le_refl 1, by norm_num, le_refl 1, by norm_num [daysInMonth]⟩
  have hev : (⟨ey, 12, 31⟩ : Date).Valid :=
    ⟨le_trans hsy hse, by norm_num, le_refl 12, by norm_num,
     by norm_num [daysInMonth]⟩
  have hse' : toOrdinal ⟨sy, 1, 1⟩ ≤ toOrdinal ⟨ey, 12, 31⟩ :=
    le_trans (toOrdinal_start_mono sy ey hsy hse) (toOrdinal_within_year _ hev).1
  have hord_lower : toOrdinal ⟨sy, 1, 1⟩ ≤ toOrdinal d :=
    le_trans (toOrdinal_start_mono sy d.year hsy hy1) (toOrdinal_within_year d hd).1
  have hord_upper : toOrdinal d ≤ toOrdinal ⟨ey, 12, 31⟩ := by
    have h1 := (toOrdinal_within_year d hd).2
    have h2 := toOrdinal_year_start_succ d.year hd.1
    have h3 := toOrdinal_start_mono (d.year + 1) (ey + 1) (by omega) (by omega)
    have h4 : toOrdinal ⟨ey + 1, 1, 1⟩ = toOrdinal ⟨ey, 12, 31⟩ + 1 := by
      rw [show (⟨ey + 1, 1, 1⟩ : Date) = nextDay ⟨ey, 12, 31⟩ from rfl]
      exact toOrdinal_nextDay _ hev
    have h5 := toOrdinal_year_start_succ ey (by omega)
    omega
  have hNval : ((toOrdinal ⟨ey, 12, 31⟩ : ℤ) - (toOrdinal ⟨sy, 1, 1⟩ : ℤ) + 1).toNat =
      toOrdinal ⟨ey, 12, 31⟩ + 1 - toOrdinal ⟨sy, 1, 1⟩ := by omega
  refine ⟨?_, ?_, ?_⟩
  · simp only [buildDimDate, List.filter_map]
    rw [List.length_map]
    have hcong : ∀ i ∈ List.range
        ((toOrdinal (⟨ey, 12, 31⟩ : Date) : ℤ) -
          (toOrdinal (⟨sy, 1, 1⟩ : Date) : ℤ) + 1).toNat,
        ((fun r => decide (DimDateRow.date r = d)) ∘
          (fun i => mkDimDateRow now (addDays ⟨sy, 1, 1⟩ i))) i =
        decide (i = toOrdinal d - toOrdinal (⟨sy, 1, 1⟩ : Date)) := by
      intro i hi
      have hi' := List.mem_range.1 hi
      have hvo := addDays_valid_ord ⟨sy, 1, 1⟩ hsv i
      simp only [Function.comp_apply, mkDimDateRow]
      rw [decide_eq_decide]
      constructor
      · intro he
        have := congrArg toOrdinal he
        rw [hvo.2] at this
        omega
      · intro he
        subst he
        apply toOrdinal_inj _ _ hvo.1 hd
        rw [hvo.2]
        omega
    rw [List.filter_congr hcong, filter_range_eq_one]
    omega
  · intro r hr
    simp only [buildDimDate, List.mem_map] at hr
    obtain ⟨i, hi, rfl⟩ := hr
    have hi' := List.mem_range.1 hi
    have hvo := addDays_valid_ord ⟨sy, 1, 1⟩ hsv i
    refine ⟨hvo.1, ?_, ?_, rfl⟩
    · by_contra hc
      push_neg at hc
      have := toOrdinal_lt_of_year_lt _ _ hvo.1 hsv (by exact hc)
      omega
    · by_contra hc
      push_neg at hc
      have hlt : toOrdinal (⟨ey, 12, 31⟩ : Date) <
          toOrdinal ((mkDimDateRow now (addDays ⟨sy, 1, 1⟩ i)).date) := by
        apply toOrdinal_lt_of_year_lt _ _ hev hvo.1
        exact hc
      have hub : toOrdinal (addDays ⟨sy, 1, 1⟩ i) ≤ toOrdinal ⟨ey, 12, 31⟩ := by
        rw [hvo.2]
        omega
      exact absurd hub (by simp only [mkDimDateRow] at hlt; omega)
  · simp only [buildDimDate, List.length_map, List.length_range]
    exact hNval

/-- Witness for C7: the single year 2021 and the day March 15, 2021. -/
theorem dim_date_one_row_per_day_witness :
    ((1 : ℕ) ≤ 2021 ∧ (2021 : ℕ) ≤ 2021 ∧ (⟨2021, 3, 15⟩ : Date).Valid) ∧
    ((buildDimDate 2021 2021 0).filter
        (fun r => r.date = (⟨2021, 3, 15⟩ : Date))).length = 1 ∧
    (∀ r ∈ buildDimDate 2021 2021 0, r.date.Valid ∧ 2021 ≤ r.date.year ∧
      r.date.year ≤ 2021 ∧
      r.date_key = (r.date.year : ℤ) * 10000 + (r.date.month : ℤ) * 100 +
        (r.date.day : ℤ)) ∧
    (buildDimDate 2021 2021 0).length =
      toOrdinal ⟨2021, 12, 31⟩ + 1 - toOrdinal ⟨2021, 1, 1⟩ :=
  ⟨⟨by norm_num, le_refl _, by decide⟩,
   dim_date_one_row_per_day 2021 2021 0 ⟨2021, 3, 15⟩ (by norm_num) (le_refl _)
     (by decide) (le_refl _) (le_refl _)⟩
